import Mathlib

/-!
Verification development for the nexus-cli debate / code-review orchestration
core (src/cli-debate).  The TypeScript source is shallowly embedded: pure
functions become Lean functions, the stateful orchestrators become explicit
state passing, the external CLI processes become deterministic behaviour
functions supplied as parameters, and JavaScript runtime values flowing
through JSON.parse are modelled by an executable Json AST with JS truthiness.
-/

set_option maxRecDepth 100000

namespace NexusCLI

/-- DebateRole enum from types.ts (runtime values are the strings shown by toStr). -/
inductive DebateRole where
  | moderator
  | challenger
  | defender
deriving DecidableEq, Repr

/-- CLIType enum from types.ts: the three supported backends. -/
inductive CLIType where
  | claude
  | codex
  | gemini
deriving DecidableEq, Repr

/-- Runtime string value of a CLIType enum member. -/
def CLIType.toStr : CLIType → String
  | .claude => "claude"
  | .codex => "codex"
  | .gemini => "gemini"

/-- DebatePhase enum from types.ts. -/
inductive DebatePhase where
  | opening
  | round
  | final
  | buildCheck
  | codeAnalysis
  | issueDefense
  | verdictAssignment
  | parallelFix
deriving DecidableEq, Repr

/-- DebateStatus enum from types.ts. -/
inductive DebateStatus where
  | pending
  | inProgress
  | completed
  | failed
  | timeout
deriving DecidableEq, Repr

/-- IssueType enum from types.ts. -/
inductive IssueType where
  | bug
  | security
  | performance
  | design
deriving DecidableEq, Repr

/-- Runtime string value of an IssueType enum member. -/
def IssueType.toStr : IssueType → String
  | .bug => "bug"
  | .security => "security"
  | .performance => "performance"
  | .design => "design"

/-- IssueSeverity enum from types.ts. -/
inductive IssueSeverity where
  | critical
  | high
  | medium
  | low
deriving DecidableEq, Repr

/-- Runtime string value of an IssueSeverity enum member. -/
def IssueSeverity.toStr : IssueSeverity → String
  | .critical => "critical"
  | .high => "high"
  | .medium => "medium"
  | .low => "low"

/-!
JavaScript value model.  Values produced by JSON.parse are one of: null,
boolean, number, string, array, object.  A numeric value is kept as its
source literal; the only fact about a number the orchestration code ever
consults is its truthiness (zero / non-zero), which is recoverable from the
mantissa digits of the literal.  A missing property (JS undefined) is
collapsed into Json.null: the source sends such values only through
optional chaining, truthiness tests, strict comparison with strings and the
keyword tables, on which null and undefined behave identically.  Property
ACCESS comes in the two forms the source uses: optional chaining (x?.k,
Json.jsGet, total) and plain access (x.k, Json.jsGetE), which throws a
TypeError when the receiver is null — JSON.parse output is never undefined.
-/
inductive Json where
  | null
  | bool (b : Bool)
  | num (lit : String)
  | str (s : String)
  | arr (elems : List Json)
  | obj (fields : List (String × Json))

/-- Structural equality test on Json values (needed because automatic
deriving does not handle this nested inductive). -/
def Json.beq : Json → Json → Bool
  | .null, .null => true
  | .bool a, .bool b => a == b
  | .num a, .num b => a == b
  | .str a, .str b => a == b
  | .arr xs, .arr ys => beqList xs ys
  | .obj xs, .obj ys => beqFields xs ys
  | _, _ => false
where
  beqList : List Json → List Json → Bool
    | [], [] => true
    | x :: xs, y :: ys => Json.beq x y && beqList xs ys
    | _, _ => false
  beqFields : List (String × Json) → List (String × Json) → Bool
    | [], [] => true
    | (k1, v1) :: xs, (k2, v2) :: ys => k1 == k2 && Json.beq v1 v2 && beqFields xs ys
    | _, _ => false

instance : BEq Json := ⟨Json.beq⟩

/-- JS optional-chaining property access (v?.k), which is also what plain
access does on every non-null receiver: on an object, the last binding of
the key wins (JSON.parse keeps the last duplicate key); on a nullish or
primitive receiver the result is undefined, modelled as Json.null. -/
def Json.jsGet (v : Json) (k : String) : Json :=
  match v with
  | .obj fields => (lookupLast fields).getD .null
  | _ => .null
where
  lookupLast : List (String × Json) → Option Json
    | [] => none
    | (k', v') :: rest =>
      match lookupLast rest with
      | some r => some r
      | none => if k' == k then some v' else none

/-- JS plain property access (v.k) as used on decoded payload values: a
null receiver throws a TypeError (Except.error); a primitive receiver
yields undefined; an object yields the last binding of the key. -/
def Json.jsGetE (v : Json) (k : String) : Except Unit Json :=
  match v with
  | .null => .error ()
  | _ => .ok (v.jsGet k)

/-- Whether a numeric literal denotes zero: true iff no mantissa digit
(before any exponent marker) is non-zero. -/
def numLitIsZero (lit : String) : Bool :=
  !(lit.data.takeWhile (fun c => c ≠ 'e' ∧ c ≠ 'E')).any
      (fun c => '1' ≤ c ∧ c ≤ '9')

/-- JS truthiness of a parsed JSON value: null, false, 0 and the empty
string are falsy; arrays and objects (even empty) are truthy. -/
def Json.truthy : Json → Bool
  | .null => false
  | .bool b => b
  | .num lit => !numLitIsZero lit
  | .str s => s ≠ ""
  | .arr _ => true
  | .obj _ => true

/-- JS strict equality (v === s) against a string: true only when v is the
same string. -/
def jsEqStr (v : Json) (s : String) : Bool :=
  match v with
  | .str t => t == s
  | _ => false

/-- JS `v || ""` as used for defaulting the description field. -/
def jsOrEmptyStr (v : Json) : Json :=
  if v.truthy then v else .str ""

/-!
JSON.parse model.  An executable recursive-descent parser for the JSON
grammar (RFC 8259, as implemented by JSON.parse): values, objects with
string keys, arrays, strings with escapes, numbers, true/false/null,
insignificant whitespace.  Recursion is bounded by an explicit fuel
argument; fuel exhaustion yields a parse failure, and every theorem about
parsing conditions on the parse result, so fuel adequacy is never assumed.
-/

/-- JSON insignificant whitespace (space, tab, line feed, carriage return). -/
def jsonWs (c : Char) : Bool :=
  c = ' ' || c = '\t' || c = '\n' || c = '\r'

/-- Skip JSON whitespace. -/
def skipJsonWs (cs : List Char) : List Char :=
  cs.dropWhile jsonWs

/-- Hexadecimal digit value, if any. -/
def hexVal (c : Char) : Option Nat :=
  if '0' ≤ c ∧ c ≤ '9' then some (c.toNat - 48)
  else if 'a' ≤ c ∧ c ≤ 'f' then some (c.toNat - 87)
  else if 'A' ≤ c ∧ c ≤ 'F' then some (c.toNat - 55)
  else none

/-- Parse the remainder of a JSON string literal (after the opening quote),
returning the decoded characters and the rest of the input. -/
def parseJsonStringAux : Nat → List Char → List Char → Option (List Char × List Char)
  | 0, _, _ => none
  | _ + 1, _, [] => none
  | fuel + 1, acc, c :: rest =>
    if c = '"' then some (acc.reverse, rest)
    else if c = '\\' then
      match rest with
      | [] => none
      | e :: rest' =>
        if e = '"' then parseJsonStringAux fuel ('"' :: acc) rest'
        else if e = '\\' then parseJsonStringAux fuel ('\\' :: acc) rest'
        else if e = '/' then parseJsonStringAux fuel ('/' :: acc) rest'
        else if e = 'b' then parseJsonStringAux fuel (Char.ofNat 8 :: acc) rest'
        else if e = 'f' then parseJsonStringAux fuel (Char.ofNat 12 :: acc) rest'
        else if e = 'n' then parseJsonStringAux fuel ('\n' :: acc) rest'
        else if e = 'r' then parseJsonStringAux fuel ('\r' :: acc) rest'
        else if e = 't' then parseJsonStringAux fuel ('\t' :: acc) rest'
        else if e = 'u' then
          match rest' with
          | h1 :: h2 :: h3 :: h4 :: rest'' =>
            match hexVal h1, hexVal h2, hexVal h3, hexVal h4 with
            | some a, some b, some c', some d =>
              parseJsonStringAux fuel
                (Char.ofNat (((a * 16 + b) * 16 + c') * 16 + d) :: acc) rest''
            | _, _, _, _ => none
          | _ => none
        else none
    else if c.toNat < 32 then none
    else parseJsonStringAux fuel (c :: acc) rest

/-- Decimal digit test. -/
def isDig (c : Char) : Bool := '0' ≤ c && c ≤ '9'

/-- Parse a JSON number literal per the JSON grammar
(minus? int frac? exp?), returning the literal text and the rest. -/
def parseJsonNum (cs : List Char) : Option (List Char × List Char) := do
  let (sgn, cs1) := match cs with
    | '-' :: r => ([('-' : Char)], r)
    | _ => ([], cs)
  let (ip, cs2) ← parseIntPart cs1
  let (fp, cs3) := parseFracPart cs2
  let (ep, cs4) ← parseExpPart cs3
  some (sgn ++ ip ++ fp ++ ep, cs4)
where
  parseIntPart : List Char → Option (List Char × List Char)
    | '0' :: r => some (['0'], r)
    | c :: r =>
      if '1' ≤ c ∧ c ≤ '9' then
        some (c :: r.takeWhile isDig, r.dropWhile isDig)
      else none
    | [] => none
  parseFracPart : List Char → List Char × List Char
    | '.' :: r =>
      if (r.takeWhile isDig).isEmpty then ([], '.' :: r)
      else ('.' :: r.takeWhile isDig, r.dropWhile isDig)
    | cs' => ([], cs')
  parseExpPart : List Char → Option (List Char × List Char)
    | e :: r =>
      if e = 'e' ∨ e = 'E' then
        let (sg, r1) := match r with
          | '+' :: r' => (['+'], r')
          | '-' :: r' => (['-'], r')
          | _ => (([] : List Char), r)
        if (r1.takeWhile isDig).isEmpty then none
        else some (e :: sg ++ r1.takeWhile isDig, r1.dropWhile isDig)
      else some ([], e :: r)
    | [] => some ([], [])

mutual

/-- Parse one JSON value (leading whitespace allowed). -/
def parseJsonVal : Nat → List Char → Option (Json × List Char)
  | 0, _ => none
  | fuel + 1, cs =>
    match skipJsonWs cs with
    | 'n' :: 'u' :: 'l' :: 'l' :: rest => some (.null, rest)
    | 't' :: 'r' :: 'u' :: 'e' :: rest => some (.bool true, rest)
    | 'f' :: 'a' :: 'l' :: 's' :: 'e' :: rest => some (.bool false, rest)
    | '"' :: rest =>
      match parseJsonStringAux (rest.length + 1) [] rest with
      | some (s, rest') => some (.str (String.mk s), rest')
      | none => none
    | '[' :: rest =>
      (match skipJsonWs rest with
       | ']' :: rest' => some (.arr [], rest')
       | _ =>
         match parseJsonElems fuel rest with
         | some (elems, rest') => some (.arr elems, rest')
         | none => none)
    | '{' :: rest =>
      (match skipJsonWs rest with
       | '}' :: rest' => some (.obj [], rest')
       | _ =>
         match parseJsonFields fuel rest with
         | some (fields, rest') => some (.obj fields, rest')
         | none => none)
    | c :: rest =>
      if c = '-' ∨ isDig c then
        match parseJsonNum (c :: rest) with
        | some (lit, rest') => some (.num (String.mk lit), rest')
        | none => none
      else none
    | [] => none

/-- Parse the elements of a non-empty JSON array (after the opening
bracket), including the closing bracket. -/
def parseJsonElems : Nat → List Char → Option (List Json × List Char)
  | 0, _ => none
  | fuel + 1, cs => do
    let (v, rest) ← parseJsonVal fuel cs
    match skipJsonWs rest with
    | ',' :: rest' =>
      let (vs, rest'') ← parseJsonElems fuel rest'
      some (v :: vs, rest'')
    | ']' :: rest' => some ([v], rest')
    | _ => none

/-- Parse the fields of a non-empty JSON object (after the opening brace),
including the closing brace. -/
def parseJsonFields : Nat → List Char → Option (List (String × Json) × List Char)
  | 0, _ => none
  | fuel + 1, cs =>
    match skipJsonWs cs with
    | '"' :: rest =>
      match parseJsonStringAux (rest.length + 1) [] rest with
      | some (k, rest1) =>
        (match skipJsonWs rest1 with
         | ':' :: rest2 => do
           let (v, rest3) ← parseJsonVal fuel rest2
           match skipJsonWs rest3 with
           | ',' :: rest4 =>
             let (fs, rest5) ← parseJsonFields fuel rest4
             some ((String.mk k, v) :: fs, rest5)
           | '}' :: rest4 => some ([(String.mk k, v)], rest4)
           | _ => none
         | _ => none)
      | none => none
    | _ => none

end

/-- JSON.parse: parse a complete JSON document; trailing non-whitespace is a
parse error.  A none result models the thrown decode exception. -/
def jsonParse (s : String) : Option Json :=
  match parseJsonVal (2 * s.data.length + 8) s.data with
  | some (v, rest) => if (skipJsonWs rest).isEmpty then some v else none
  | none => none

/-!
Fenced-block extraction.  Both parsing entry points run the regular
expression matching a json-tagged code fence and fall back to the whole
text: the first occurrence of the opening tag that has a later closing
triple-backtick matches, the captured group being the text between them
with surrounding whitespace stripped (the greedy leading whitespace run and
the lazy group ending before the whitespace run that precedes the first
closing fence).  If the first opening tag has no closing fence, no later
one can (a later opening tag itself contains a triple backtick), so the
whole match fails.
-/

/-- The backtick character. -/
def btick : Char := Char.ofNat 96

/-- JS regex whitespace class (the characters relevant to this codebase:
ASCII whitespace plus no-break space and BOM). -/
def jsReWs (c : Char) : Bool :=
  c = ' ' || c = '\t' || c = '\n' || c = '\r' ||
  c = Char.ofNat 11 || c = Char.ofNat 12 || c = Char.ofNat 160 || c = Char.ofNat 65279

/-- Strip leading and trailing regex whitespace. -/
def jsTrimWs (cs : List Char) : List Char :=
  ((cs.dropWhile jsReWs).reverse.dropWhile jsReWs).reverse

/-- Content before the first triple backtick, if one occurs. -/
def takeUntilTicks : List Char → Option (List Char)
  | [] => none
  | c :: rest =>
    if rest.length ≥ 2 ∧ c = btick ∧ rest.take 2 = [btick, btick] then some []
    else (takeUntilTicks rest).map (c :: ·)

/-- Whether the list starts with the seven-character opening tag of a
json-tagged code fence. -/
def fenceOpenAt (cs : List Char) : Bool :=
  cs.take 7 = [btick, btick, btick, 'j', 's', 'o', 'n']

/-- The captured group of the fence regex on the given text, if it matches. -/
def findFenceContent : List Char → Option (List Char)
  | [] => none
  | c :: rest =>
    if fenceOpenAt (c :: rest) then
      match takeUntilTicks ((c :: rest).drop 7) with
      | some content => some (jsTrimWs content)
      | none => none
    else findFenceContent rest

/-- The candidate string handed to JSON.parse: the captured fence content if
the fence regex matches, otherwise the entire output. -/
def extractCandidate (s : String) : String :=
  match findFenceContent s.data with
  | some content => String.mk content
  | none => s

/-!
Structured output parsing (code-review.ts): parseIssuesFromOutput,
parseIssueType, parseSeverity, parseVerdictAndAssign, parseCLIType.
A thrown JS exception inside the try block is modelled by Except.error;
the catch handler supplies the fallback value.
-/

/-- ASCII lowering, the fragment of String.prototype.toLowerCase exercised
by the enum keyword tables. -/
def strLower (s : String) : String :=
  String.mk (s.data.map Char.toLower)

/-- The typeMap lookup table from parseIssueType. -/
def typeMapLookup (s : String) : Option IssueType :=
  if s = "bug" then some .bug
  else if s = "security" then some .security
  else if s = "performance" then some .performance
  else if s = "design" then some .design
  else none

/-- parseIssueType from code-review.ts: lower the incoming value, look it up
in the type table, default to BUG.  A nullish value passes through optional
chaining to the miss-then-default path; calling toLowerCase on any other
non-string throws (Except.error), to be caught by the caller. -/
def parseIssueType (v : Json) : Except Unit IssueType :=
  match v with
  | .null => .ok .bug
  | .str s => .ok ((typeMapLookup (strLower s)).getD .bug)
  | _ => .error ()

/-- The severityMap lookup table from parseSeverity. -/
def severityMapLookup (s : String) : Option IssueSeverity :=
  if s = "critical" then some .critical
  else if s = "high" then some .high
  else if s = "medium" then some .medium
  else if s = "low" then some .low
  else none

/-- parseSeverity from code-review.ts: like parseIssueType with default
MEDIUM. -/
def parseSeverity (v : Json) : Except Unit IssueSeverity :=
  match v with
  | .null => .ok .medium
  | .str s => .ok ((severityMapLookup (strLower s)).getD .medium)
  | _ => .error ()

/-- Decimal digit character. -/
def digitChar (d : Nat) : Char := Char.ofNat (48 + d)

/-- Decimal digit list of a number, most significant first. -/
def natLitAux (n : Nat) : List Char :=
  if _h : n < 10 then [digitChar n]
  else natLitAux (n / 10) ++ [digitChar (n % 10)]
decreasing_by exact Nat.div_lt_self (by omega) (by omega)

/-- Decimal rendering of a number, as JS template interpolation produces. -/
def natLit (n : Nat) : String := String.mk (natLitAux n)

/-- CodeIssue from types.ts.  Fields that the source copies straight out of
the decoded payload keep their runtime JS value (Json); enum-valued fields
go through the keyword tables. -/
structure CodeIssue where
  id : String
  type : IssueType
  severity : IssueSeverity
  description : Json
  filePath : Json
  lineNumber : Json
  suggestedFix : Json
  assignedTo : Option CLIType := none
  fixed : Option Bool := none
  fixResult : Option String := none

/-- One element of the decoded issues array mapped to a CodeIssue, as the
map callback of parseIssuesFromOutput does at position index.  Every field
read (issue.type, issue.severity, issue.description, issue.filePath,
issue.lineNumber, issue.suggestedFix) is a plain access, so a null array
element throws a TypeError out of the callback. -/
def buildIssue (index : Nat) (v : Json) : Except Unit CodeIssue := do
  let tv ← v.jsGetE "type"
  let t ← parseIssueType tv
  let sv ← v.jsGetE "severity"
  let sev ← parseSeverity sv
  let dv ← v.jsGetE "description"
  let fp ← v.jsGetE "filePath"
  let ln ← v.jsGetE "lineNumber"
  let sf ← v.jsGetE "suggestedFix"
  .ok { id := "issue-" ++ natLit (index + 1)
        type := t
        severity := sev
        description := jsOrEmptyStr dv
        filePath := fp
        lineNumber := ln
        suggestedFix := sf }

/-- The indexed map over the issues array; a throw at any element aborts the
whole map. -/
def buildIssues : Nat → List Json → Except Unit (List CodeIssue)
  | _, [] => .ok []
  | i, v :: vs => do
    let issue ← buildIssue i v
    let rest ← buildIssues (i + 1) vs
    .ok (issue :: rest)

/-- parseIssuesFromOutput from code-review.ts: extract the candidate text,
JSON.parse it, and when the result carries an issues array, map it to
CodeIssues; any parse error or throw inside the try block — including the
TypeError of the plain access parsed.issues on a null document or of a
field access on a null array element — yields the empty list. -/
def parseIssuesFromOutput (output : String) : List CodeIssue :=
  match jsonParse (extractCandidate output) with
  | none => []
  | some parsed =>
    match parsed.jsGetE "issues" with
    | .error _ => []
    | .ok (.arr items) =>
      match buildIssues 0 items with
      | .ok l => l
      | .error _ => []
    | .ok _ => []

/-- The cliMap lookup table from parseCLIType. -/
def cliMapLookup (s : String) : Option CLIType :=
  if s = "claude" then some .claude
  else if s = "codex" then some .codex
  else if s = "gemini" then some .gemini
  else none

/-- parseCLIType from code-review.ts: lower, look up, default CLAUDE; a
non-string non-nullish value throws in toLowerCase. -/
def parseCLIType (v : Json) : Except Unit CLIType :=
  match v with
  | .null => .ok .claude
  | .str s => .ok ((cliMapLookup (strLower s)).getD .claude)
  | _ => .error ()

/-- The find call of parseVerdictAndAssign: scan the confirmedIssues
entries in order for the first whose issueId strictly equals the issue id.
The callback reads c.issueId with a plain access, so a null entry reached
by the scan throws a TypeError out of find. -/
def findIssueEntry (issueId : String) : List Json → Except Unit (Option Json)
  | [] => .ok none
  | c :: cs => do
    let v ← c.jsGetE "issueId"
    if jsEqStr v issueId then .ok (some c) else findIssueEntry issueId cs

/-- The loop body of parseVerdictAndAssign: for each issue of the working
set in order, find the first confirmedIssues entry whose issueId strictly
equals the issue id; keep the issue (with assignedTo set from the entry,
read by optional chaining for confirmed and plain access for assignTo)
exactly when such an entry exists and its confirmed field is truthy; any
TypeError of the scan propagates. -/
def assignConfirmed (entries : List Json) : List CodeIssue → Except Unit (List CodeIssue)
  | [] => .ok []
  | issue :: rest => do
    let found ← findIssueEntry issue.id entries
    match found with
    | some c =>
      if (c.jsGet "confirmed").truthy then do
        let av ← c.jsGetE "assignTo"
        let cli ← parseCLIType av
        let tail ← assignConfirmed entries rest
        .ok ({ issue with assignedTo := some cli } :: tail)
      else assignConfirmed entries rest
    | none => assignConfirmed entries rest

/-- parseVerdictAndAssign from code-review.ts: parse the verdict text for a
confirmedIssues array and filter/assign the working issues by it; on any
parse failure or throw inside the try block — including the TypeError of
parsed.confirmedIssues on a null document or of the find scan reaching a
null entry — return the original issue list unchanged. -/
def parseVerdictAndAssign (output : String) (issues : List CodeIssue) : List CodeIssue :=
  match jsonParse (extractCandidate output) with
  | none => issues
  | some parsed =>
    match parsed.jsGetE "confirmedIssues" with
    | .error _ => issues
    | .ok (.arr entries) =>
      match assignConfirmed entries issues with
      | .ok kept => kept
      | .error _ => issues
    | .ok _ => issues

/-!
BaseCLIAgent.execute (agents/base-agent.ts).  The spawned child process is
abstracted into the sequence of callback events it delivers: stdout data,
stderr data, close (with an exit code that node may report as null), the
spawn-failure error event, and the firing of the timeout timer.  The
executor's promise executor is the fold of the handler bodies over that
sequence; wall-clock time is modelled as the index of the event (each event
one tick after the previous), which is all the duration arithmetic
observes.
-/

/-- AgentExecuteResult from types.ts. -/
structure ExecResult where
  success : Bool
  output : String
  error : Option String := none
  duration : Nat
deriving DecidableEq, Repr

/-- One callback event delivered to the handlers installed by execute. -/
inductive ExecEvent where
  | stdoutData (chunk : String)
  | stderrData (chunk : String)
  | close (code : Option Int)
  | spawnError (msg : String)
  | timerFired
deriving DecidableEq, Repr

/-- The mutable state closed over by the handlers of execute: the two
accumulators, the resolved flag, the resolved value, whether clearTimeout
ran, whether SIGTERM was sent; resolveCalls counts how many times the
resolution callback actually fired. -/
structure ExecutorState where
  output : String := ""
  errorOutput : String := ""
  resolved : Bool := false
  result : Option ExecResult := none
  timerCleared : Bool := false
  killed : Bool := false
  resolveCalls : Nat := 0

/-- Render a nullable exit code the way JS template interpolation does. -/
def exitCodeText : Option Int → String
  | some n => toString n
  | none => "null"

/-- The close-handler's error value: stderr text if non-empty, otherwise
the exit-code message (only consulted on non-zero exit). -/
def closeError (errorOutput : String) (code : Option Int) : String :=
  if errorOutput ≠ "" then errorOutput else "退出码: " ++ exitCodeText code

/-- One handler invocation of BaseCLIAgent.execute, at tick t. -/
def execStep (st : ExecutorState) (t : Nat) : ExecEvent → ExecutorState
  | .stdoutData chunk => { st with output := st.output ++ chunk }
  | .stderrData chunk => { st with errorOutput := st.errorOutput ++ chunk }
  | .timerFired =>
    if !st.timerCleared ∧ !st.resolved then
      { st with resolved := true, killed := true, resolveCalls := st.resolveCalls + 1
                result := some { success := false, output := st.output
                                 error := some "执行超时", duration := t } }
    else st
  | .close code =>
    if !st.resolved then
      { st with resolved := true, timerCleared := true, resolveCalls := st.resolveCalls + 1
                result := some { success := code == some 0, output := st.output.trim
                                 error := if code ≠ some 0 then some (closeError st.errorOutput code)
                                          else none
                                 duration := t } }
    else st
  | .spawnError msg =>
    if !st.resolved then
      { st with resolved := true, timerCleared := true, resolveCalls := st.resolveCalls + 1
                result := some { success := false, output := ""
                                 error := some msg, duration := t } }
    else st

/-- Run the handlers of execute over an event sequence starting from the given
state and tick. -/
def execRunFrom (st : ExecutorState) (t : Nat) : List ExecEvent → ExecutorState
  | [] => st
  | e :: es => execRunFrom (execStep st t e) (t + 1) es

/-- Run the handlers of execute over a whole event sequence. -/
def execRun (events : List ExecEvent) : ExecutorState :=
  execRunFrom {} 0 events

/-- Whether an event resolves the promise when it is the first such event. -/
def isResolving : ExecEvent → Bool
  | .close _ => true
  | .spawnError _ => true
  | .timerFired => true
  | _ => false

/-- Modelled from the spec: the single resolution of execute, determined by
the first resolving event of the sequence — success on exit code zero with
the output accumulated so far, non-zero-exit failure carrying stderr text or
the exit code, timeout failure retaining partial output, or launch failure
carrying the error message.  Stated over the prefix before that event. -/
def specOutcome : List ExecEvent → Nat → String → String → Option ExecResult
  | [], _, _, _ => none
  | .stdoutData c :: es, t, out, err => specOutcome es (t + 1) (out ++ c) err
  | .stderrData c :: es, t, out, err => specOutcome es (t + 1) out (err ++ c)
  | .timerFired :: _, t, out, _ =>
    some { success := false, output := out, error := some "执行超时", duration := t }
  | .close code :: _, t, out, err =>
    some { success := code == some 0, output := out.trim
           error := if code ≠ some 0 then some (closeError err code) else none
           duration := t }
  | .spawnError msg :: _, t, _, _ =>
    some { success := false, output := "", error := some msg, duration := t }

/-!
createAgent (duplicated in orchestrator and code-review.ts): dispatch from a
backend identity to a constructed agent.  At runtime the scrutinee is the
string value of the enum, so the input is modelled as a string; the default arm
of the switch throws.  Agents are represented by their constructed
configuration (command plus the constructor-supplied state).
-/

/-- The constructed state of a concrete agent. -/
structure AgentInst where
  cliType : CLIType
  command : String
  role : DebateRole
  timeout : Nat
  extraArgs : List String
deriving DecidableEq, Repr

/-- ClaudeAgent constructor (claude-agent.ts): default timeout 300000,
extraArgs --print. -/
def mkClaudeAgent (role : DebateRole) (timeout : Option Nat) : AgentInst :=
  { cliType := .claude, command := "claude", role
    timeout := timeout.getD 300000, extraArgs := ["--print"] }

/-- CodexAgent constructor (codex-agent.ts): default timeout 300000, no
extraArgs. -/
def mkCodexAgent (role : DebateRole) (timeout : Option Nat) : AgentInst :=
  { cliType := .codex, command := "codex", role
    timeout := timeout.getD 300000, extraArgs := [] }

/-- GeminiAgent constructor (gemini-agent.ts): default timeout 300000,
extraArgs --yolo -o text. -/
def mkGeminiAgent (role : DebateRole) (timeout : Option Nat) : AgentInst :=
  { cliType := .gemini, command := "gemini", role
    timeout := timeout.getD 300000, extraArgs := ["--yolo", "-o", "text"] }

/-- createAgent: the switch over the runtime string value of the backend
identity; the default arm throws an unsupported-type error. -/
def createAgent (cliType : String) (role : DebateRole) (timeout : Option Nat) :
    Except String AgentInst :=
  if cliType = "claude" then .ok (mkClaudeAgent role timeout)
  else if cliType = "codex" then .ok (mkCodexAgent role timeout)
  else if cliType = "gemini" then .ok (mkGeminiAgent role timeout)
  else .error ("不支持的 CLI 类型: " ++ cliType)

/-!
DebateOrchestrator (orchestrator file of src/cli-debate).  The external CLI
processes behind the three role-bound agents are modelled as deterministic
behaviour functions from the prompt to an ExecResult, plus the availability
answer of the availability probe.  uuid generation is modelled as a fresh-counter supply and
Date.now as a clock advanced by the duration of each execution; neither value
feeds back into control flow.  The prompt templates (prompts.ts) only
produce strings the orchestrator passes through opaquely, so they enter the
model as a parameter record.
-/

/-- The observable behaviour of the external CLI behind one agent. -/
structure AgentBehavior where
  available : Bool
  exec : String → ExecResult

/-- DebateMessage from types.ts (id from the uuid supply, timestamp from
the modelled clock). -/
structure DebateMessage where
  id : Nat
  role : DebateRole
  cliType : CLIType
  content : String
  timestamp : Nat
  phase : DebatePhase
  roundNumber : Option Nat := none
deriving DecidableEq, Repr

/-- RoundResult from types.ts. -/
structure RoundResult where
  roundNumber : Nat
  challengerMessage : DebateMessage
  defenderMessage : DebateMessage
  moderatorEvaluation : DebateMessage
  duration : Nat
deriving DecidableEq, Repr

/-- The orchestrator's private mutable state: the append-only transcript,
the uuid supply, the clock. -/
structure OrchState where
  messages : List DebateMessage := []
  nextId : Nat := 0
  clock : Nat := 0
deriving DecidableEq, Repr

/-- createMessage: build a message, append it to the transcript, return it. -/
def createMessage (st : OrchState) (role : DebateRole) (cliType : CLIType)
    (content : String) (phase : DebatePhase) (roundNumber : Option Nat) :
    OrchState × DebateMessage :=
  let msg : DebateMessage :=
    { id := st.nextId, role, cliType, content, timestamp := st.clock, phase, roundNumber }
  ({ st with messages := st.messages ++ [msg], nextId := st.nextId + 1 }, msg)

/-- Advance the modelled clock across one agent execution. -/
def tickClock (st : OrchState) (r : ExecResult) : OrchState :=
  { st with clock := st.clock + r.duration }

/-- JS template interpolation of a possibly-undefined error field. -/
def errText (e : Option String) : String := e.getD "undefined"

/-- The prompt templates of prompts.ts consumed by the debate orchestrator. -/
structure DebatePrompts where
  openingOf : String → String
  challengerOf : String → Nat → List DebateMessage → String
  defenderOf : String → Nat → List DebateMessage → String
  evaluationOf : String → Nat → List DebateMessage → String
  finalVerdictOf : String → List DebateMessage → String

/-- The debate configuration fields the core control flow reads. -/
structure DebateConfigM where
  topic : String
  rounds : Nat
  moderatorType : CLIType
  challengerType : CLIType
  defenderType : CLIType

/-- The three role-bound behaviours of one debate run. -/
structure DebateAgents where
  moderator : AgentBehavior
  challenger : AgentBehavior
  defender : AgentBehavior

/-- checkAgentsAvailable: probe all three agents and aggregate the error
strings in moderator/challenger/defender order. -/
def checkAgentsAvailable (cfg : DebateConfigM) (ag : DebateAgents) : List String :=
  (if !ag.moderator.available then
      ["主持人 CLI (" ++ cfg.moderatorType.toStr ++ ") 不可用"] else []) ++
  (if !ag.challenger.available then
      ["挑战者 CLI (" ++ cfg.challengerType.toStr ++ ") 不可用"] else []) ++
  (if !ag.defender.available then
      ["辩护者 CLI (" ++ cfg.defenderType.toStr ++ ") 不可用"] else [])

/-- executeOpening: the moderator executes the opening prompt; on success a
Message is created, on failure the run-level error is thrown. -/
def executeOpening (cfg : DebateConfigM) (P : DebatePrompts) (ag : DebateAgents)
    (st : OrchState) : OrchState × Except String DebateMessage :=
  let r := ag.moderator.exec (P.openingOf cfg.topic)
  let st := tickClock st r
  if r.success then
    let (st', m) := createMessage st .moderator cfg.moderatorType r.output .opening none
    (st', .ok m)
  else
    (st, .error ("主持人开场失败: " ++ errText r.error))

/-- executeRound: strictly sequential challenger, defender, moderator
sub-steps, each building its prompt from the transcript as extended by the
previous sub-step; the failure of any sub-step throws. -/
def executeRound (cfg : DebateConfigM) (P : DebatePrompts) (ag : DebateAgents)
    (roundNumber : Nat) (st : OrchState) : OrchState × Except String RoundResult :=
  let roundStart := st.clock
  let r1 := ag.challenger.exec (P.challengerOf cfg.topic roundNumber st.messages)
  let st := tickClock st r1
  if r1.success then
    let (st, chMsg) :=
      createMessage st .challenger cfg.challengerType r1.output .round (some roundNumber)
    let r2 := ag.defender.exec (P.defenderOf cfg.topic roundNumber st.messages)
    let st := tickClock st r2
    if r2.success then
      let (st, defMsg) :=
        createMessage st .defender cfg.defenderType r2.output .round (some roundNumber)
      let r3 := ag.moderator.exec (P.evaluationOf cfg.topic roundNumber st.messages)
      let st := tickClock st r3
      if r3.success then
        let (st, evalMsg) :=
          createMessage st .moderator cfg.moderatorType r3.output .round (some roundNumber)
        (st, .ok { roundNumber, challengerMessage := chMsg, defenderMessage := defMsg
                   moderatorEvaluation := evalMsg, duration := st.clock - roundStart })
      else (st, .error ("主持人评估失败: " ++ errText r3.error))
    else (st, .error ("辩护者回应失败: " ++ errText r2.error))
  else (st, .error ("挑战者质疑失败: " ++ errText r1.error))

/-- The round loop of run: rounds i, i+1, ... while k rounds remain; the
completed RoundResults are kept even when a later round throws. -/
def runRounds (cfg : DebateConfigM) (P : DebatePrompts) (ag : DebateAgents) :
    Nat → Nat → OrchState → OrchState × List RoundResult × Option String
  | _, 0, st => (st, [], none)
  | i, k + 1, st =>
    match executeRound cfg P ag i st with
    | (st', .ok r) =>
      let (st'', rs, e) := runRounds cfg P ag (i + 1) k st'
      (st'', r :: rs, e)
    | (st', .error e) => (st', [], some e)

/-- executeFinalVerdict: the moderator executes the final-verdict prompt
over the complete transcript. -/
def executeFinalVerdict (cfg : DebateConfigM) (P : DebatePrompts) (ag : DebateAgents)
    (st : OrchState) : OrchState × Except String DebateMessage :=
  let r := ag.moderator.exec (P.finalVerdictOf cfg.topic st.messages)
  let st := tickClock st r
  if r.success then
    let (st', m) := createMessage st .moderator cfg.moderatorType r.output .final none
    (st', .ok m)
  else
    (st, .error ("最终裁决失败: " ++ errText r.error))

/-- DebateResult from types.ts (uuid and wall-clock fields modelled by the
counter supply and clock). -/
structure DebateResult where
  topic : String
  status : DebateStatus
  opening : Option DebateMessage := none
  rounds : List RoundResult := []
  finalVerdict : Option DebateMessage := none
  totalDuration : Option Nat := none
  error : Option String := none
deriving DecidableEq, Repr

/-- DebateOrchestrator.run: availability pre-flight, opening, the round
loop, final verdict; any thrown error is caught into a Failed result that
keeps all partial progress.  Returns the result together with the
transcript. -/
def debateRun (cfg : DebateConfigM) (P : DebatePrompts) (ag : DebateAgents) :
    DebateResult × List DebateMessage :=
  let st0 : OrchState := {}
  let base : DebateResult := { topic := cfg.topic, status := .pending }
  let errors := checkAgentsAvailable cfg ag
  if !errors.isEmpty then
    ({ base with status := .failed
                 error := some ("Agent 不可用: " ++ String.intercalate ", " errors)
                 totalDuration := some st0.clock }, st0.messages)
  else
    match executeOpening cfg P ag st0 with
    | (st1, .error e) =>
      ({ base with status := .failed, error := some e
                   totalDuration := some st1.clock }, st1.messages)
    | (st1, .ok op) =>
      match runRounds cfg P ag 1 cfg.rounds st1 with
      | (st2, rs, some e) =>
        ({ base with status := .failed, opening := some op, rounds := rs
                     error := some e, totalDuration := some st2.clock }, st2.messages)
      | (st2, rs, none) =>
        match executeFinalVerdict cfg P ag st2 with
        | (st3, .error e) =>
          ({ base with status := .failed, opening := some op, rounds := rs
                       error := some e, totalDuration := some st3.clock }, st3.messages)
        | (st3, .ok fv) =>
          ({ base with status := .completed, opening := some op, rounds := rs
                       finalVerdict := some fv
                       totalDuration := some st3.clock }, st3.messages)

/-!
CodeReviewOrchestrator (code-review.ts).  Fixer behaviours are keyed by
backend identity (the external program determines what an agent of that
type does), and the fixer map built by the constructor is represented by
its key list in insertion order.  The build-check child process is
abstracted into its exit code and stream contents.
-/

/-- FixTask status values from types.ts. -/
inductive FixStatus where
  | pending
  | inProgress
  | completed
  | failed
deriving DecidableEq, Repr

/-- FixTask from types.ts (id from the uuid supply). -/
structure FixTask where
  id : Nat
  issue : CodeIssue
  assignedCLI : CLIType
  status : FixStatus
  result : Option String := none
  duration : Option Nat := none

/-- BuildCheckResult from types.ts. -/
structure BuildCheckResult where
  success : Bool
  command : String
  output : String
  errors : Option (List String) := none
  duration : Nat
deriving DecidableEq, Repr

/-- The observable behaviour of the build-command child process. -/
structure BuildBehavior where
  code : Option Int
  stdout : String
  stderr : String
  duration : Nat

/-- The code-review configuration fields the core control flow reads.
fixers holds the cliTypes of the configured fixer AgentConfig list. -/
structure CodeReviewConfigM where
  path : String
  focus : Option (List IssueType) := none
  buildCommand : Option String := none
  autoFix : Bool := false
  challengerType : CLIType
  defenderType : CLIType
  moderatorType : CLIType
  fixers : Option (List CLIType) := none

/-- The behaviours of one code-review run: the three role agents, the fixer
agent per backend identity, and the build process. -/
structure ReviewAgents where
  challenger : AgentBehavior
  defender : AgentBehavior
  moderator : AgentBehavior
  fixerOf : CLIType → AgentBehavior

/-- The prompt templates of prompts.ts consumed by the code-review
orchestrator. -/
structure ReviewPrompts where
  challengerOf : String → Option (List IssueType) → String
  defenderOf : String → List CodeIssue → String
  verdictOf : String → List CodeIssue → String → String
  fixOf : CodeIssue → String → String

/-- Append a key to a first-occurrence-ordered key list if absent (JS Map
insertion-order key semantics). -/
def insertKey (ks : List CLIType) (k : CLIType) : List CLIType :=
  if k ∈ ks then ks else ks ++ [k]

/-- The key list of the constructor-built fixers map: first occurrences of
the configured fixer cliTypes; if that leaves the map empty (fixers absent
or an empty list), all three backends are installed as the default pool. -/
def fixerKeys (cfg : CodeReviewConfigM) : List CLIType :=
  let keys := (cfg.fixers.getD []).foldl insertKey []
  if keys.isEmpty then [.claude, .codex, .gemini] else keys

/-- executeBuildCheck: run the configured build command (default npm run
build); a non-zero exit collects the non-empty stderr lines as errors.  The
run never aborts on its result. -/
def executeBuildCheck (cfg : CodeReviewConfigM) (b : BuildBehavior) : BuildCheckResult :=
  let command := cfg.buildCommand.getD "npm run build"
  { success := b.code == some 0
    command
    output := b.stdout ++ b.stderr
    errors := if b.code ≠ some 0 then some ((b.stderr.splitOn "\n").filter (· ≠ "")) else none
    duration := b.duration }

/-- executeChallengerAnalysis: the challenger analyzes the path; failure
throws; the output is parsed into the issue list and recorded as a
Message (created after parsing, also when zero issues result). -/
def executeChallengerAnalysis (cfg : CodeReviewConfigM) (P : ReviewPrompts)
    (ag : ReviewAgents) (st : OrchState) : OrchState × Except String (List CodeIssue) :=
  let r := ag.challenger.exec (P.challengerOf cfg.path cfg.focus)
  let st := tickClock st r
  if r.success then
    let issues := parseIssuesFromOutput r.output
    let (st', _) :=
      createMessage st .challenger cfg.challengerType r.output .codeAnalysis none
    (st', .ok issues)
  else
    (st, .error ("挑战者分析失败: " ++ errText r.error))

/-- executeDefenderResponse: the defender responds to the issue list as
free-form text; failure throws; the response is recorded as a Message. -/
def executeDefenderResponse (cfg : CodeReviewConfigM) (P : ReviewPrompts)
    (ag : ReviewAgents) (issues : List CodeIssue) (st : OrchState) :
    OrchState × Except String DebateMessage :=
  let r := ag.defender.exec (P.defenderOf cfg.path issues)
  let st := tickClock st r
  if r.success then
    let (st', m) := createMessage st .defender cfg.defenderType r.output .issueDefense none
    (st', .ok m)
  else
    (st, .error ("辩护者回应失败: " ++ errText r.error))

/-- executeModeratorVerdict: the moderator receives the issues and defense
text; failure throws; the verdict Message is recorded and the output parsed
into the confirmed working set. -/
def executeModeratorVerdict (cfg : CodeReviewConfigM) (P : ReviewPrompts)
    (ag : ReviewAgents) (issues : List CodeIssue) (defenseText : String) (st : OrchState) :
    OrchState × Except String (DebateMessage × List CodeIssue) :=
  let r := ag.moderator.exec (P.verdictOf cfg.path issues defenseText)
  let st := tickClock st r
  if r.success then
    let (st', m) :=
      createMessage st .moderator cfg.moderatorType r.output .verdictAssignment none
    let confirmedIssues := parseVerdictAndAssign r.output issues
    (st', .ok (m, confirmedIssues))
  else
    (st, .error ("主持人裁决失败: " ++ errText r.error))

/-- executeFixTask: one remediation task; the fixer's execution result
alone decides the terminal status, and result text and duration are always
recorded (the task's catch arm cannot fire in this model because execute
never throws). -/
def executeFixTask (beh : AgentBehavior) (cliType : CLIType) (issue : CodeIssue)
    (path : String) (P : ReviewPrompts) (taskId : Nat) : FixTask :=
  let r := beh.exec (P.fixOf issue path)
  { id := taskId
    issue
    assignedCLI := cliType
    status := if r.success then .completed else .failed
    result := some r.output
    duration := some r.duration }

/-- The backend identity the remediation of an issue routes to: its assignment,
defaulting to CLAUDE. -/
def issueCli (issue : CodeIssue) : CLIType :=
  issue.assignedTo.getD .claude

/-- The (backend, issue) work list of executeParallelFix: issues grouped by
routed backend in key-insertion order, groups in issue order, groups whose
backend has no fixer in the map silently skipped. -/
def parallelFixWork (cfg : CodeReviewConfigM) (issues : List CodeIssue) :
    List (CLIType × CodeIssue) :=
  let keys := issues.foldl (fun ks i => insertKey ks (issueCli i)) []
  (keys.filter (· ∈ fixerKeys cfg)).flatMap
    (fun k => (issues.filter (fun i => issueCli i == k)).map (fun i => (k, i)))

/-- executeParallelFix: nothing to do unless auto-fix is on and issues
exist; otherwise every work item becomes a FixTask and the phase joins on
all of them (Promise.all preserves the work-list order; the tasks are
independent, so the concurrent fan-out is modelled by the pointwise map). -/
def executeParallelFix (cfg : CodeReviewConfigM) (P : ReviewPrompts) (ag : ReviewAgents)
    (issues : List CodeIssue) : List FixTask :=
  if !cfg.autoFix || issues.isEmpty then []
  else
    (parallelFixWork cfg issues).enum.map
      (fun wi => executeFixTask (ag.fixerOf wi.2.1) wi.2.1 wi.2.2 cfg.path P wi.1)

/-- CodeReviewResult from types.ts. -/
structure CodeReviewResult where
  path : String
  status : DebateStatus
  buildCheck : Option BuildCheckResult := none
  issues : List CodeIssue := []
  defenseResponses : Option (List DebateMessage) := none
  verdict : Option DebateMessage := none
  fixTasks : Option (List FixTask) := none
  error : Option String := none

/-- CodeReviewOrchestrator.run: optional advisory build check, challenger
analysis, the zero-issue short-circuit, defense, verdict, optional parallel
fix; a thrown error is caught into a Failed result keeping partial
progress.  No availability check is performed.  Returns the result with the
transcript. -/
def codeReviewRun (cfg : CodeReviewConfigM) (P : ReviewPrompts) (ag : ReviewAgents)
    (b : BuildBehavior) : CodeReviewResult × List DebateMessage :=
  let st0 : OrchState := {}
  let buildCheck := cfg.buildCommand.map (fun _ => executeBuildCheck cfg b)
  let base : CodeReviewResult :=
    { path := cfg.path, status := .inProgress, buildCheck }
  match executeChallengerAnalysis cfg P ag st0 with
  | (st1, .error e) =>
    ({ base with status := .failed, error := some e }, st1.messages)
  | (st1, .ok issues) =>
    if issues.isEmpty then
      ({ base with status := .completed, issues := [] }, st1.messages)
    else
      match executeDefenderResponse cfg P ag issues st1 with
      | (st2, .error e) =>
        ({ base with status := .failed, issues, error := some e }, st2.messages)
      | (st2, .ok defMsg) =>
        match executeModeratorVerdict cfg P ag issues defMsg.content st2 with
        | (st3, .error e) =>
          ({ base with status := .failed, issues
                       defenseResponses := some [defMsg], error := some e }, st3.messages)
        | (st3, .ok (vMsg, confirmedIssues)) =>
          let fixTasks :=
            if cfg.autoFix && !confirmedIssues.isEmpty then
              some (executeParallelFix cfg P ag confirmedIssues)
            else none
          ({ base with status := .completed, issues := confirmedIssues
                       defenseResponses := some [defMsg], verdict := some vMsg
                       fixTasks }, st3.messages)

/-!
Auxiliary specification-side definitions used to state the claims.
-/

/-- Numeric value of a most-significant-first digit string. -/
def digitsVal (cs : List Char) : Nat :=
  cs.foldl (fun a c => a * 10 + (c.toNat - 48)) 0

/-- The three messages a round contributes to the transcript, in sub-step
order. -/
def roundsMessages (rs : List RoundResult) : List DebateMessage :=
  rs.flatMap (fun r => [r.challengerMessage, r.defenderMessage, r.moderatorEvaluation])

/-- A well-formed issue object of a payload: type and severity are
recognized keyword strings. -/
def WellFormedIssueItem (v : Json) : Prop :=
  (∃ t, v.jsGet "type" = Json.str t ∧ (typeMapLookup (strLower t)).isSome) ∧
  (∃ u, v.jsGet "severity" = Json.str u ∧ (severityMapLookup (strLower u)).isSome)

/-- Pointwise correspondence between a parsed issue and its payload object:
the runtime enum strings of the issue are the lowered payload strings. -/
def IssueMatchesItem (issue : CodeIssue) (v : Json) : Prop :=
  (∃ t, v.jsGet "type" = Json.str t ∧ issue.type.toStr = strLower t) ∧
  (∃ u, v.jsGet "severity" = Json.str u ∧ issue.severity.toStr = strLower u)

/-!
Theorems.
-/

/-- C7 counterexample: the claim says an unrecognized backend-identity
value yields the executor of the default backend; on the concrete unrecognized
value cursor, createAgent instead throws the unsupported-CLI-type error. -/
theorem claim_C7_counterexample :
    createAgent "cursor" DebateRole.moderator none =
      Except.error "不支持的 CLI 类型: cursor" := rfl

/-- C7 amended: the dispatch is a pure total mapping sending each of the
three recognized backend-identity values to the constructed executor of
that backend, and every unrecognized value to a thrown unsupported-CLI-type
error (there is no default-backend fallthrough). -/
theorem claim_C7_dispatch (role : DebateRole) (t : Option Nat) (s : String)
    (h : s ≠ "claude" ∧ s ≠ "codex" ∧ s ≠ "gemini") :
    createAgent "claude" role t = .ok (mkClaudeAgent role t) ∧
    createAgent "codex" role t = .ok (mkCodexAgent role t) ∧
    createAgent "gemini" role t = .ok (mkGeminiAgent role t) ∧
    createAgent s role t = .error ("不支持的 CLI 类型: " ++ s) := by
  obtain ⟨h1, h2, h3⟩ := h
  refine ⟨rfl, rfl, rfl, ?_⟩
  simp [createAgent, h1, h2, h3]

/-- C7 witness: the amended dispatch theorem at a concrete unrecognized
value. -/
theorem claim_C7_dispatch_witness :
    createAgent "cursor" DebateRole.defender (some 5) =
      .error ("不支持的 CLI 类型: " ++ "cursor") :=
  (claim_C7_dispatch DebateRole.defender (some 5) "cursor"
    (by refine ⟨?_, ?_, ?_⟩ <;> decide)).2.2.2

theorem jsGetE_of_ne_null (v : Json) (k : String) (h : v ≠ Json.null) :
    v.jsGetE k = .ok (v.jsGet k) := by
  cases v
  case null => exact absurd rfl h
  all_goals rfl

theorem buildIssue_of_ne_null (i : Nat) (v : Json) (h : v ≠ Json.null) :
    buildIssue i v = (do
      let t ← parseIssueType (v.jsGet "type")
      let sev ← parseSeverity (v.jsGet "severity")
      Except.ok { id := "issue-" ++ natLit (i + 1), type := t, severity := sev
                  description := jsOrEmptyStr (v.jsGet "description")
                  filePath := v.jsGet "filePath", lineNumber := v.jsGet "lineNumber"
                  suggestedFix := v.jsGet "suggestedFix" }) := by
  unfold buildIssue
  rw [jsGetE_of_ne_null v "type" h, jsGetE_of_ne_null v "severity" h,
      jsGetE_of_ne_null v "description" h, jsGetE_of_ne_null v "filePath" h,
      jsGetE_of_ne_null v "lineNumber" h, jsGetE_of_ne_null v "suggestedFix" h]
  cases ht : parseIssueType (v.jsGet "type") with
  | error e => simp [Bind.bind, Except.bind, ht]
  | ok t =>
    cases hs : parseSeverity (v.jsGet "severity") with
    | error e => simp [Bind.bind, Except.bind, ht, hs]
    | ok sev => simp [Bind.bind, Except.bind, ht, hs]

theorem buildIssue_null (i : Nat) : buildIssue i Json.null = .error () := rfl

theorem digitsVal_append_digit (xs : List Char) (c : Char) :
    digitsVal (xs ++ [c]) = digitsVal xs * 10 + (c.toNat - 48) := by
  simp [digitsVal, List.foldl_append]

theorem digitChar_toNat (d : Nat) (h : d < 10) : (digitChar d).toNat = 48 + d := by
  interval_cases d <;> decide

theorem digitsVal_natLitAux (n : Nat) : digitsVal (natLitAux n) = n := by
  induction n using Nat.strong_induction_on with
  | _ n ih =>
    rw [natLitAux]
    by_cases h : n < 10
    · simp [h, digitsVal, digitChar_toNat n h]
    · have hlt : n / 10 < n := Nat.div_lt_self (by omega) (by omega)
      simp only [h, if_false, dite_false]
      rw [digitsVal_append_digit, ih (n / 10) hlt,
          digitChar_toNat (n % 10) (Nat.mod_lt n (by omega))]
      omega

theorem natLit_injective : Function.Injective natLit := by
  intro a b h
  have h2 : natLitAux a = natLitAux b := by
    have := congrArg String.data h
    simpa [natLit] using this
  have := congrArg digitsVal h2
  simpa [digitsVal_natLitAux] using this

theorem issueIdOf_injective :
    Function.Injective (fun k : Nat => "issue-" ++ natLit (k + 1)) := by
  intro a b h
  simp only at h
  have hmk : ∀ x y : List Char, String.mk x ++ String.mk y = String.mk (x ++ y) :=
    fun _ _ => rfl
  have ha : "issue-" ++ natLit (a + 1) =
      String.mk ("issue-".data ++ natLitAux (a + 1)) := rfl
  have hb : "issue-" ++ natLit (b + 1) =
      String.mk ("issue-".data ++ natLitAux (b + 1)) := rfl
  rw [ha, hb] at h
  have hd : "issue-".data ++ natLitAux (a + 1) = "issue-".data ++ natLitAux (b + 1) := by
    injection h
  have := List.append_cancel_left hd
  have := natLit_injective (congrArg String.mk this)
  omega

theorem buildIssue_id (i : Nat) (v : Json) (issue : CodeIssue)
    (h : buildIssue i v = .ok issue) : issue.id = "issue-" ++ natLit (i + 1) := by
  by_cases hv : v = Json.null
  · subst hv
    rw [buildIssue_null] at h
    cases h
  · rw [buildIssue_of_ne_null i v hv] at h
    cases ht : parseIssueType (v.jsGet "type") with
    | error e => rw [ht] at h; simp [Bind.bind, Except.bind] at h
    | ok t =>
      cases hs : parseSeverity (v.jsGet "severity") with
      | error e => rw [ht, hs] at h; simp [Bind.bind, Except.bind] at h
      | ok sev =>
        rw [ht, hs] at h
        simp [Bind.bind, Except.bind] at h
        rw [← h]

theorem issueIdOf_congr (a b : Nat) (h : a = b) :
    "issue-" ++ natLit a = "issue-" ++ natLit b := by rw [h]

theorem buildIssues_ids (items : List Json) (i : Nat) (l : List CodeIssue)
    (h : buildIssues i items = .ok l) :
    l.length = items.length ∧
    l.map (fun issue => issue.id) =
      (List.range items.length).map (fun k => "issue-" ++ natLit (i + k + 1)) := by
  induction items generalizing i l with
  | nil =>
    simp [buildIssues] at h
    subst h; simp
  | cons v vs ih =>
    unfold buildIssues at h
    cases hb : buildIssue i v with
    | error e => rw [hb] at h; simp [Bind.bind, Except.bind] at h
    | ok issue =>
      cases hr : buildIssues (i + 1) vs with
      | error e => rw [hb, hr] at h; simp [Bind.bind, Except.bind] at h
      | ok rest =>
        rw [hb, hr] at h
        simp [Bind.bind, Except.bind] at h
        obtain ⟨hlen, hmap⟩ := ih (i + 1) rest hr
        subst h
        refine ⟨by simp [hlen], ?_⟩
        simp only [List.length_cons]
        rw [List.range_succ_eq_map]
        simp only [List.map_cons, List.map_map, buildIssue_id i v issue hb, hmap]
        refine congrArg₂ _ (issueIdOf_congr _ _ (by omega)) ?_
        apply List.map_congr_left
        intro k _
        exact issueIdOf_congr _ _ (by omega)

/-- C10: issue ids are generated positionally at parse time as issue-1
through issue-N in payload order whatever the payload contains (any id
field in the payload is ignored, since the id list is fully determined by
the length alone), the ids of the parsed collection are pairwise distinct,
and any issueId string a verdict references matches at most one parsed
issue. -/
theorem claim_C10_positional_ids (output : String) :
    (parseIssuesFromOutput output).map (fun issue => issue.id) =
      (List.range (parseIssuesFromOutput output).length).map
        (fun k => "issue-" ++ natLit (k + 1)) ∧
    ((parseIssuesFromOutput output).map (fun issue => issue.id)).Nodup ∧
    ∀ s : String,
      ((parseIssuesFromOutput output).map (fun issue => issue.id)).count s ≤ 1 := by
  have hids : (parseIssuesFromOutput output).map (fun issue => issue.id) =
      (List.range (parseIssuesFromOutput output).length).map
        (fun k => "issue-" ++ natLit (k + 1)) := by
    unfold parseIssuesFromOutput
    split
    · simp
    · split
      · simp
      · split
        · rename_i l hb
          obtain ⟨hlen, hmap⟩ := buildIssues_ids _ 0 _ hb
          simp only [hlen, hmap]
          apply List.map_congr_left
          intro k _
          exact issueIdOf_congr _ _ (by omega)
        · simp
      · simp
  have hnodup : ((parseIssuesFromOutput output).map (fun issue => issue.id)).Nodup := by
    rw [hids]
    exact (List.nodup_range _).map issueIdOf_injective
  exact ⟨hids, hnodup, fun s => List.nodup_iff_count_le_one.mp hnodup s⟩

theorem typeMap_toStr (s : String) (t : IssueType) (h : typeMapLookup s = some t) :
    t.toStr = s := by
  unfold typeMapLookup at h
  split_ifs at h <;> cases h <;> simp_all [IssueType.toStr]

theorem severityMap_toStr (s : String) (u : IssueSeverity)
    (h : severityMapLookup s = some u) : u.toStr = s := by
  unfold severityMapLookup at h
  split_ifs at h <;> cases h <;> simp_all [IssueSeverity.toStr]

theorem buildIssue_wf (i : Nat) (v : Json) (h : WellFormedIssueItem v) :
    ∃ issue, buildIssue i v = .ok issue ∧ IssueMatchesItem issue v := by
  obtain ⟨⟨t, ht, htl⟩, ⟨u, hu, hul⟩⟩ := h
  have hv : v ≠ Json.null := by
    intro he
    subst he
    simp [Json.jsGet] at ht
  obtain ⟨tt, htt⟩ := Option.isSome_iff_exists.mp htl
  obtain ⟨uu, huu⟩ := Option.isSome_iff_exists.mp hul
  rw [buildIssue_of_ne_null i v hv]
  refine ⟨{ id := "issue-" ++ natLit (i + 1), type := tt, severity := uu
            description := jsOrEmptyStr (v.jsGet "description")
            filePath := v.jsGet "filePath", lineNumber := v.jsGet "lineNumber"
            suggestedFix := v.jsGet "suggestedFix" }, ?_, ?_⟩
  · simp [ht, hu, parseIssueType, parseSeverity, htt, huu,
          Bind.bind, Except.bind]
  · exact ⟨⟨t, ht, typeMap_toStr _ _ htt⟩, ⟨u, hu, severityMap_toStr _ _ huu⟩⟩

theorem buildIssues_wf (items : List Json) (i : Nat)
    (h : ∀ v ∈ items, WellFormedIssueItem v) :
    ∃ l, buildIssues i items = .ok l ∧ List.Forall₂ IssueMatchesItem l items := by
  induction items generalizing i with
  | nil => exact ⟨[], rfl, List.Forall₂.nil⟩
  | cons v vs ih =>
    obtain ⟨issue, hv, hm⟩ := buildIssue_wf i v (h v (List.mem_cons_self v vs))
    obtain ⟨rest, hr, hf⟩ := ih (i + 1) (fun w hw => h w (List.mem_cons_of_mem v hw))
    refine ⟨issue :: rest, ?_, List.Forall₂.cons hm hf⟩
    unfold buildIssues
    rw [hv, hr]
    rfl

/-- C3: structured-parsing round trip.  A fenced payload whose decoded
issues array contains only well-formed issue objects parses to an Issue
list matching it pointwise in length, type and severity (the runtime
string of the parsed enum is the lowered payload string); and an input with no fence
and no decodable JSON parses to the empty issue list, without raising out
of the parsing layer (parseIssuesFromOutput is total). -/
theorem claim_C3_roundtrip (s₁ s₂ : String) (parsed : Json) (items : List Json)
    (h1 : jsonParse (extractCandidate s₁) = some parsed)
    (h2 : parsed.jsGet "issues" = Json.arr items)
    (h3 : ∀ v ∈ items, WellFormedIssueItem v)
    (h4 : findFenceContent s₂.data = none)
    (h5 : jsonParse s₂ = none) :
    ((parseIssuesFromOutput s₁).length = items.length ∧
      List.Forall₂ IssueMatchesItem (parseIssuesFromOutput s₁) items) ∧
    parseIssuesFromOutput s₂ = [] := by
  obtain ⟨l, hb, hf⟩ := buildIssues_wf items 0 h3
  have hpnn : parsed ≠ Json.null := by
    intro he
    subst he
    simp [Json.jsGet] at h2
  have hA : parseIssuesFromOutput s₁ = l := by
    unfold parseIssuesFromOutput
    simp only [h1, jsGetE_of_ne_null parsed "issues" hpnn, h2, hb]
  have hB : parseIssuesFromOutput s₂ = [] := by
    unfold parseIssuesFromOutput extractCandidate
    simp only [h4, h5]
  exact ⟨⟨by rw [hA]; exact hf.length_eq, by rw [hA]; exact hf⟩, hB⟩

/-- C3 witness: the round-trip theorem at a concrete fenced two-issue
payload and a concrete fence-free non-JSON text. -/
theorem claim_C3_roundtrip_witness :
    ((parseIssuesFromOutput
        "```json\n\x7b\"issues\": [\x7b\"type\": \"Bug\", \"severity\": \"low\"\x7d, \x7b\"type\": \"security\", \"severity\": \"Critical\"\x7d]\x7d\n```").length =
      ([Json.obj [("type", Json.str "Bug"), ("severity", Json.str "low")],
        Json.obj [("type", Json.str "security"), ("severity", Json.str "Critical")]] : List Json).length ∧
      List.Forall₂ IssueMatchesItem
        (parseIssuesFromOutput
          "```json\n\x7b\"issues\": [\x7b\"type\": \"Bug\", \"severity\": \"low\"\x7d, \x7b\"type\": \"security\", \"severity\": \"Critical\"\x7d]\x7d\n```")
        [Json.obj [("type", Json.str "Bug"), ("severity", Json.str "low")],
         Json.obj [("type", Json.str "security"), ("severity", Json.str "Critical")]]) ∧
    parseIssuesFromOutput "no structured output here" = [] :=
  claim_C3_roundtrip
    "```json\n\x7b\"issues\": [\x7b\"type\": \"Bug\", \"severity\": \"low\"\x7d, \x7b\"type\": \"security\", \"severity\": \"Critical\"\x7d]\x7d\n```"
    "no structured output here"
    (Json.obj [("issues",
        Json.arr [Json.obj [("type", Json.str "Bug"), ("severity", Json.str "low")],
                  Json.obj [("type", Json.str "security"), ("severity", Json.str "Critical")]])])
    [Json.obj [("type", Json.str "Bug"), ("severity", Json.str "low")],
     Json.obj [("type", Json.str "security"), ("severity", Json.str "Critical")]]
    rfl rfl
    (by
      intro v hv
      rcases List.mem_cons.mp hv with rfl | hv2
      · exact ⟨⟨"Bug", rfl, rfl⟩, ⟨"low", rfl, rfl⟩⟩
      · rcases List.mem_cons.mp hv2 with rfl | hv3
        · exact ⟨⟨"security", rfl, rfl⟩, ⟨"Critical", rfl, rfl⟩⟩
        · cases hv3)
    rfl rfl

/-- C8: a code-review run whose Analysis phase parses to zero issues
short-circuits straight to Completed with an empty issue list, producing no
Defense message, no Verdict and no FixTask entries; the transcript carries
only the analysis message. -/
theorem claim_C8_zero_issues (cfg : CodeReviewConfigM) (P : ReviewPrompts)
    (ag : ReviewAgents) (b : BuildBehavior)
    (hsucc : ∀ p, (ag.challenger.exec p).success = true)
    (hzero : ∀ p, parseIssuesFromOutput (ag.challenger.exec p).output = []) :
    (codeReviewRun cfg P ag b).1.status = .completed ∧
    (codeReviewRun cfg P ag b).1.issues = [] ∧
    (codeReviewRun cfg P ag b).1.defenseResponses = none ∧
    (codeReviewRun cfg P ag b).1.verdict = none ∧
    (codeReviewRun cfg P ag b).1.fixTasks = none ∧
    ∀ m ∈ (codeReviewRun cfg P ag b).2, m.phase = .codeAnalysis := by
  have hrun : codeReviewRun cfg P ag b =
      ({ path := cfg.path, status := .completed
         buildCheck := cfg.buildCommand.map (fun _ => executeBuildCheck cfg b) },
       [{ id := 0, role := .challenger, cliType := cfg.challengerType
          content := (ag.challenger.exec (P.challengerOf cfg.path cfg.focus)).output
          timestamp := (ag.challenger.exec (P.challengerOf cfg.path cfg.focus)).duration
          phase := .codeAnalysis, roundNumber := none }]) := by
    unfold codeReviewRun executeChallengerAnalysis tickClock createMessage
    simp [hsucc, hzero]
  rw [hrun]
  refine ⟨rfl, rfl, rfl, rfl, rfl, ?_⟩
  intro m hm
  rw [List.mem_singleton.mp hm]

/-- C8 witness: the zero-issue short-circuit theorem at a concrete run
whose challenger always succeeds with non-JSON output. -/
theorem claim_C8_zero_issues_witness :
    (codeReviewRun
        { path := "src", challengerType := .claude, defenderType := .codex
          moderatorType := .gemini, autoFix := true }
        { challengerOf := fun _ _ => "", defenderOf := fun _ _ => ""
          verdictOf := fun _ _ _ => "", fixOf := fun _ _ => "" }
        { challenger := { available := true
                          exec := fun _ => { success := true, output := "looks clean", duration := 1 } }
          defender := { available := true
                        exec := fun _ => { success := true, output := "", duration := 1 } }
          moderator := { available := true
                         exec := fun _ => { success := true, output := "", duration := 1 } }
          fixerOf := fun _ => { available := true
                                exec := fun _ => { success := true, output := "", duration := 1 } } }
        { code := some 0, stdout := "", stderr := "", duration := 0 }).1.status = .completed ∧
    (codeReviewRun
        { path := "src", challengerType := .claude, defenderType := .codex
          moderatorType := .gemini, autoFix := true }
        { challengerOf := fun _ _ => "", defenderOf := fun _ _ => ""
          verdictOf := fun _ _ _ => "", fixOf := fun _ _ => "" }
        { challenger := { available := true
                          exec := fun _ => { success := true, output := "looks clean", duration := 1 } }
          defender := { available := true
                        exec := fun _ => { success := true, output := "", duration := 1 } }
          moderator := { available := true
                         exec := fun _ => { success := true, output := "", duration := 1 } }
          fixerOf := fun _ => { available := true
                                exec := fun _ => { success := true, output := "", duration := 1 } } }
        { code := some 0, stdout := "", stderr := "", duration := 0 }).1.issues = [] ∧
    (codeReviewRun
        { path := "src", challengerType := .claude, defenderType := .codex
          moderatorType := .gemini, autoFix := true }
        { challengerOf := fun _ _ => "", defenderOf := fun _ _ => ""
          verdictOf := fun _ _ _ => "", fixOf := fun _ _ => "" }
        { challenger := { available := true
                          exec := fun _ => { success := true, output := "looks clean", duration := 1 } }
          defender := { available := true
                        exec := fun _ => { success := true, output := "", duration := 1 } }
          moderator := { available := true
                         exec := fun _ => { success := true, output := "", duration := 1 } }
          fixerOf := fun _ => { available := true
                                exec := fun _ => { success := true, output := "", duration := 1 } } }
        { code := some 0, stdout := "", stderr := "", duration := 0 }).1.defenseResponses = none ∧
    (codeReviewRun
        { path := "src", challengerType := .claude, defenderType := .codex
          moderatorType := .gemini, autoFix := true }
        { challengerOf := fun _ _ => "", defenderOf := fun _ _ => ""
          verdictOf := fun _ _ _ => "", fixOf := fun _ _ => "" }
        { challenger := { available := true
                          exec := fun _ => { success := true, output := "looks clean", duration := 1 } }
          defender := { available := true
                        exec := fun _ => { success := true, output := "", duration := 1 } }
          moderator := { available := true
                         exec := fun _ => { success := true, output := "", duration := 1 } }
          fixerOf := fun _ => { available := true
                                exec := fun _ => { success := true, output := "", duration := 1 } } }
        { code := some 0, stdout := "", stderr := "", duration := 0 }).1.verdict = none ∧
    (codeReviewRun
        { path := "src", challengerType := .claude, defenderType := .codex
          moderatorType := .gemini, autoFix := true }
        { challengerOf := fun _ _ => "", defenderOf := fun _ _ => ""
          verdictOf := fun _ _ _ => "", fixOf := fun _ _ => "" }
        { challenger := { available := true
                          exec := fun _ => { success := true, output := "looks clean", duration := 1 } }
          defender := { available := true
                        exec := fun _ => { success := true, output := "", duration := 1 } }
          moderator := { available := true
                         exec := fun _ => { success := true, output := "", duration := 1 } }
          fixerOf := fun _ => { available := true
                                exec := fun _ => { success := true, output := "", duration := 1 } } }
        { code := some 0, stdout := "", stderr := "", duration := 0 }).1.fixTasks = none ∧
    ∀ m ∈ (codeReviewRun
        { path := "src", challengerType := .claude, defenderType := .codex
          moderatorType := .gemini, autoFix := true }
        { challengerOf := fun _ _ => "", defenderOf := fun _ _ => ""
          verdictOf := fun _ _ _ => "", fixOf := fun _ _ => "" }
        { challenger := { available := true
                          exec := fun _ => { success := true, output := "looks clean", duration := 1 } }
          defender := { available := true
                        exec := fun _ => { success := true, output := "", duration := 1 } }
          moderator := { available := true
                         exec := fun _ => { success := true, output := "", duration := 1 } }
          fixerOf := fun _ => { available := true
                                exec := fun _ => { success := true, output := "", duration := 1 } } }
        { code := some 0, stdout := "", stderr := "", duration := 0 }).2,
      m.phase = .codeAnalysis :=
  claim_C8_zero_issues _ _ _ _ (fun _ => rfl) (fun _ => rfl)

/-- C2 counterexample: a code-review run whose role-bound executors all
report unavailable is not aborted pre-flight — the orchestrator never
consults availability — so the run proceeds, creates a Message and
completes, contradicting the claim for the Code-Review orchestrator. -/
theorem claim_C2_counterexample :
    (codeReviewRun
        { path := "src", challengerType := .claude, defenderType := .codex
          moderatorType := .gemini }
        { challengerOf := fun _ _ => "", defenderOf := fun _ _ => ""
          verdictOf := fun _ _ _ => "", fixOf := fun _ _ => "" }
        { challenger := { available := false
                          exec := fun _ => { success := true, output := "clean", duration := 1 } }
          defender := { available := false
                        exec := fun _ => { success := true, output := "", duration := 1 } }
          moderator := { available := false
                         exec := fun _ => { success := true, output := "", duration := 1 } }
          fixerOf := fun _ => { available := false
                                exec := fun _ => { success := true, output := "", duration := 1 } } }
        { code := some 0, stdout := "", stderr := "", duration := 0 }).1.status = .completed ∧
    (codeReviewRun
        { path := "src", challengerType := .claude, defenderType := .codex
          moderatorType := .gemini }
        { challengerOf := fun _ _ => "", defenderOf := fun _ _ => ""
          verdictOf := fun _ _ _ => "", fixOf := fun _ _ => "" }
        { challenger := { available := false
                          exec := fun _ => { success := true, output := "clean", duration := 1 } }
          defender := { available := false
                        exec := fun _ => { success := true, output := "", duration := 1 } }
          moderator := { available := false
                         exec := fun _ => { success := true, output := "", duration := 1 } }
          fixerOf := fun _ => { available := false
                                exec := fun _ => { success := true, output := "", duration := 1 } } }
        { code := some 0, stdout := "", stderr := "", duration := 0 }).1.error = none ∧
    (codeReviewRun
        { path := "src", challengerType := .claude, defenderType := .codex
          moderatorType := .gemini }
        { challengerOf := fun _ _ => "", defenderOf := fun _ _ => ""
          verdictOf := fun _ _ _ => "", fixOf := fun _ _ => "" }
        { challenger := { available := false
                          exec := fun _ => { success := true, output := "clean", duration := 1 } }
          defender := { available := false
                        exec := fun _ => { success := true, output := "", duration := 1 } }
          moderator := { available := false
                         exec := fun _ => { success := true, output := "", duration := 1 } }
          fixerOf := fun _ => { available := false
                                exec := fun _ => { success := true, output := "", duration := 1 } } }
        { code := some 0, stdout := "", stderr := "", duration := 0 }).2.length = 1 := by
  refine ⟨?_, ?_, ?_⟩ <;> rfl

/-- C2 amended: only the Debate orchestrator performs the pre-flight
availability check: if any of its three role-bound executors reports
unavailable, the run fails immediately with the aggregated unavailability
error naming the unavailable role(s), with an empty transcript and no
opening, rounds or final verdict; the Code-Review orchestrator performs no
availability check at all. -/
theorem claim_C2_preflight (cfg : DebateConfigM) (P : DebatePrompts) (ag : DebateAgents)
    (h : ag.moderator.available = false ∨ ag.challenger.available = false ∨
         ag.defender.available = false) :
    (debateRun cfg P ag).1.status = .failed ∧
    (debateRun cfg P ag).1.error =
      some ("Agent 不可用: " ++ String.intercalate ", " (checkAgentsAvailable cfg ag)) ∧
    checkAgentsAvailable cfg ag ≠ [] ∧
    (debateRun cfg P ag).2 = [] ∧
    (debateRun cfg P ag).1.opening = none ∧
    (debateRun cfg P ag).1.rounds = [] ∧
    (debateRun cfg P ag).1.finalVerdict = none ∧
    (ag.moderator.available = false →
      "主持人 CLI (" ++ cfg.moderatorType.toStr ++ ") 不可用" ∈ checkAgentsAvailable cfg ag) ∧
    (ag.challenger.available = false →
      "挑战者 CLI (" ++ cfg.challengerType.toStr ++ ") 不可用" ∈ checkAgentsAvailable cfg ag) ∧
    (ag.defender.available = false →
      "辩护者 CLI (" ++ cfg.defenderType.toStr ++ ") 不可用" ∈ checkAgentsAvailable cfg ag) := by
  have hne : checkAgentsAvailable cfg ag ≠ [] := by
    rcases h with h | h | h <;> simp [checkAgentsAvailable, h]
  have hemp : (checkAgentsAvailable cfg ag).isEmpty = false := by
    rcases hl : checkAgentsAvailable cfg ag with _ | ⟨a, t⟩
    · exact absurd hl hne
    · rfl
  have hrun : debateRun cfg P ag =
      ({ topic := cfg.topic, status := .failed
         error := some ("Agent 不可用: " ++ String.intercalate ", " (checkAgentsAvailable cfg ag))
         totalDuration := some 0 }, []) := by
    unfold debateRun
    simp [hemp]
  rw [hrun]
  refine ⟨rfl, rfl, hne, rfl, rfl, rfl, rfl, ?_, ?_, ?_⟩
  · intro hm; simp [checkAgentsAvailable, hm]
  · intro hm; simp [checkAgentsAvailable, hm]
  · intro hm; simp [checkAgentsAvailable, hm]

/-- C2 witness: the pre-flight theorem at a concrete debate run whose
challenger is unavailable. -/
theorem claim_C2_preflight_witness :
    (debateRun
        { topic := "t", rounds := 2, moderatorType := .gemini
          challengerType := .claude, defenderType := .codex }
        { openingOf := fun _ => "", challengerOf := fun _ _ _ => ""
          defenderOf := fun _ _ _ => "", evaluationOf := fun _ _ _ => ""
          finalVerdictOf := fun _ _ => "" }
        { moderator := { available := true
                         exec := fun _ => { success := true, output := "", duration := 1 } }
          challenger := { available := false
                          exec := fun _ => { success := true, output := "", duration := 1 } }
          defender := { available := true
                        exec := fun _ => { success := true, output := "", duration := 1 } } }).1.status
      = .failed ∧
    (debateRun
        { topic := "t", rounds := 2, moderatorType := .gemini
          challengerType := .claude, defenderType := .codex }
        { openingOf := fun _ => "", challengerOf := fun _ _ _ => ""
          defenderOf := fun _ _ _ => "", evaluationOf := fun _ _ _ => ""
          finalVerdictOf := fun _ _ => "" }
        { moderator := { available := true
                         exec := fun _ => { success := true, output := "", duration := 1 } }
          challenger := { available := false
                          exec := fun _ => { success := true, output := "", duration := 1 } }
          defender := { available := true
                        exec := fun _ => { success := true, output := "", duration := 1 } } }).2
      = [] := by
  have := claim_C2_preflight
    { topic := "t", rounds := 2, moderatorType := .gemini
      challengerType := .claude, defenderType := .codex }
    { openingOf := fun _ => "", challengerOf := fun _ _ _ => ""
      defenderOf := fun _ _ _ => "", evaluationOf := fun _ _ _ => ""
      finalVerdictOf := fun _ _ => "" }
    { moderator := { available := true
                     exec := fun _ => { success := true, output := "", duration := 1 } }
      challenger := { available := false
                      exec := fun _ => { success := true, output := "", duration := 1 } }
      defender := { available := true
                    exec := fun _ => { success := true, output := "", duration := 1 } } }
    (Or.inr (Or.inl rfl))
  exact ⟨this.1, this.2.2.2.1⟩

theorem executeOpening_success (cfg : DebateConfigM) (P : DebatePrompts) (ag : DebateAgents)
    (st : OrchState) (hM : ∀ p, (ag.moderator.exec p).success = true) :
    ∃ m st', executeOpening cfg P ag st = (st', .ok m) ∧
      st'.messages = st.messages ++ [m] ∧ m.phase = .opening ∧ m.roundNumber = none := by
  unfold executeOpening tickClock createMessage
  simp only [hM, if_true]
  exact ⟨_, _, rfl, rfl, rfl, rfl⟩

theorem executeFinalVerdict_success (cfg : DebateConfigM) (P : DebatePrompts)
    (ag : DebateAgents) (st : OrchState)
    (hM : ∀ p, (ag.moderator.exec p).success = true) :
    ∃ m st', executeFinalVerdict cfg P ag st = (st', .ok m) ∧
      st'.messages = st.messages ++ [m] ∧ m.phase = .final ∧ m.roundNumber = none := by
  unfold executeFinalVerdict tickClock createMessage
  simp only [hM, if_true]
  exact ⟨_, _, rfl, rfl, rfl, rfl⟩

theorem executeRound_success (cfg : DebateConfigM) (P : DebatePrompts) (ag : DebateAgents)
    (i : Nat) (st : OrchState)
    (hC : ∀ p, (ag.challenger.exec p).success = true)
    (hD : ∀ p, (ag.defender.exec p).success = true)
    (hM : ∀ p, (ag.moderator.exec p).success = true) :
    ∃ r st', executeRound cfg P ag i st = (st', .ok r) ∧
      r.roundNumber = i ∧
      st'.messages = st.messages ++
        [r.challengerMessage, r.defenderMessage, r.moderatorEvaluation] := by
  unfold executeRound tickClock createMessage
  simp only [hC, hD, hM, if_true]
  refine ⟨_, _, rfl, rfl, ?_⟩
  simp

theorem runRounds_success (cfg : DebateConfigM) (P : DebatePrompts) (ag : DebateAgents)
    (hC : ∀ p, (ag.challenger.exec p).success = true)
    (hD : ∀ p, (ag.defender.exec p).success = true)
    (hM : ∀ p, (ag.moderator.exec p).success = true) :
    ∀ (k i : Nat) (st : OrchState), ∃ rs st',
      runRounds cfg P ag i k st = (st', rs, none) ∧
      rs.length = k ∧
      rs.map (fun r => r.roundNumber) = List.range' i k ∧
      st'.messages = st.messages ++ roundsMessages rs := by
  intro k
  induction k with
  | zero =>
    intro i st
    exact ⟨[], st, rfl, rfl, rfl, by simp [roundsMessages]⟩
  | succ k ih =>
    intro i st
    obtain ⟨r, st1, hr, hrn, hmsg⟩ := executeRound_success cfg P ag i st hC hD hM
    obtain ⟨rs, st2, hrs, hlen, hmap, hmsg2⟩ := ih (i + 1) st1
    refine ⟨r :: rs, st2, ?_, by simp [hlen], ?_, ?_⟩
    · unfold runRounds
      rw [hr]
      simp only [hrs]
    · simp [hmap, hrn, List.range']
    · rw [hmsg2, hmsg]
      simp [roundsMessages]

/-- C6: a debate run with all three executors available and every
invocation succeeding completes with exactly N RoundResults for the
configured round count N (numbered 1..N in order), exactly one opening
Message and one final-verdict Message, and a transcript that is the opening
first, then the round messages in round order, then the final verdict; with
N = 0 the transcript is just opening then final verdict. -/
theorem claim_C6_debate_transcript (cfg : DebateConfigM) (P : DebatePrompts)
    (ag : DebateAgents)
    (hAvM : ag.moderator.available = true)
    (hAvC : ag.challenger.available = true)
    (hAvD : ag.defender.available = true)
    (hM : ∀ p, (ag.moderator.exec p).success = true)
    (hC : ∀ p, (ag.challenger.exec p).success = true)
    (hD : ∀ p, (ag.defender.exec p).success = true) :
    (debateRun cfg P ag).1.status = .completed ∧
    (debateRun cfg P ag).1.rounds.length = cfg.rounds ∧
    (debateRun cfg P ag).1.rounds.map (fun r => r.roundNumber) = List.range' 1 cfg.rounds ∧
    ∃ op fv, (debateRun cfg P ag).1.opening = some op ∧
      (debateRun cfg P ag).1.finalVerdict = some fv ∧
      op.phase = .opening ∧ fv.phase = .final ∧
      (debateRun cfg P ag).2 =
        op :: (roundsMessages (debateRun cfg P ag).1.rounds ++ [fv]) := by
  have hava : checkAgentsAvailable cfg ag = [] := by
    simp [checkAgentsAvailable, hAvM, hAvC, hAvD]
  obtain ⟨op, st1, hop, hopmsg, hopph, _⟩ := executeOpening_success cfg P ag {} hM
  obtain ⟨rs, st2, hrr, hlen, hmap, hmsg2⟩ :=
    runRounds_success cfg P ag hC hD hM cfg.rounds 1 st1
  obtain ⟨fv, st3, hfv, hfvmsg, hfvph, _⟩ := executeFinalVerdict_success cfg P ag st2 hM
  have hrun : debateRun cfg P ag =
      ({ topic := cfg.topic, status := .completed, opening := some op, rounds := rs
         finalVerdict := some fv, totalDuration := some st3.clock }, st3.messages) := by
    unfold debateRun
    simp only [hava, List.isEmpty_nil, Bool.not_true, if_false, hop, hrr, hfv,
               Bool.false_eq_true]
  rw [hrun]
  refine ⟨rfl, hlen, hmap, op, fv, rfl, rfl, hopph, hfvph, ?_⟩
  rw [hfvmsg, hmsg2, hopmsg]
  simp

/-- C6 witness: the transcript theorem at a concrete two-round debate whose
executors all succeed. -/
theorem claim_C6_debate_transcript_witness :
    (debateRun
        { topic := "t", rounds := 2, moderatorType := .gemini
          challengerType := .claude, defenderType := .codex }
        { openingOf := fun _ => "", challengerOf := fun _ _ _ => ""
          defenderOf := fun _ _ _ => "", evaluationOf := fun _ _ _ => ""
          finalVerdictOf := fun _ _ => "" }
        { moderator := { available := true
                         exec := fun _ => { success := true, output := "ok", duration := 1 } }
          challenger := { available := true
                          exec := fun _ => { success := true, output := "ok", duration := 1 } }
          defender := { available := true
                        exec := fun _ => { success := true, output := "ok", duration := 1 } } }).1.status
      = .completed ∧
    (debateRun
        { topic := "t", rounds := 2, moderatorType := .gemini
          challengerType := .claude, defenderType := .codex }
        { openingOf := fun _ => "", challengerOf := fun _ _ _ => ""
          defenderOf := fun _ _ _ => "", evaluationOf := fun _ _ _ => ""
          finalVerdictOf := fun _ _ => "" }
        { moderator := { available := true
                         exec := fun _ => { success := true, output := "ok", duration := 1 } }
          challenger := { available := true
                          exec := fun _ => { success := true, output := "ok", duration := 1 } }
          defender := { available := true
                        exec := fun _ => { success := true, output := "ok", duration := 1 } } }).1.rounds.length
      = 2 ∧
    ∃ op fv,
      (debateRun
          { topic := "t", rounds := 2, moderatorType := .gemini
            challengerType := .claude, defenderType := .codex }
          { openingOf := fun _ => "", challengerOf := fun _ _ _ => ""
            defenderOf := fun _ _ _ => "", evaluationOf := fun _ _ _ => ""
            finalVerdictOf := fun _ _ => "" }
          { moderator := { available := true
                           exec := fun _ => { success := true, output := "ok", duration := 1 } }
            challenger := { available := true
                            exec := fun _ => { success := true, output := "ok", duration := 1 } }
            defender := { available := true
                          exec := fun _ => { success := true, output := "ok", duration := 1 } } }).1.opening
        = some op ∧
      (debateRun
          { topic := "t", rounds := 2, moderatorType := .gemini
            challengerType := .claude, defenderType := .codex }
          { openingOf := fun _ => "", challengerOf := fun _ _ _ => ""
            defenderOf := fun _ _ _ => "", evaluationOf := fun _ _ _ => ""
            finalVerdictOf := fun _ _ => "" }
          { moderator := { available := true
                           exec := fun _ => { success := true, output := "ok", duration := 1 } }
            challenger := { available := true
                            exec := fun _ => { success := true, output := "ok", duration := 1 } }
            defender := { available := true
                          exec := fun _ => { success := true, output := "ok", duration := 1 } } }).1.finalVerdict
        = some fv ∧
      (debateRun
          { topic := "t", rounds := 2, moderatorType := .gemini
            challengerType := .claude, defenderType := .codex }
          { openingOf := fun _ => "", challengerOf := fun _ _ _ => ""
            defenderOf := fun _ _ _ => "", evaluationOf := fun _ _ _ => ""
            finalVerdictOf := fun _ _ => "" }
          { moderator := { available := true
                           exec := fun _ => { success := true, output := "ok", duration := 1 } }
            challenger := { available := true
                            exec := fun _ => { success := true, output := "ok", duration := 1 } }
            defender := { available := true
                          exec := fun _ => { success := true, output := "ok", duration := 1 } } }).2
        = op :: (roundsMessages
            (debateRun
                { topic := "t", rounds := 2, moderatorType := .gemini
                  challengerType := .claude, defenderType := .codex }
                { openingOf := fun _ => "", challengerOf := fun _ _ _ => ""
                  defenderOf := fun _ _ _ => "", evaluationOf := fun _ _ _ => ""
                  finalVerdictOf := fun _ _ => "" }
                { moderator := { available := true
                                 exec := fun _ => { success := true, output := "ok", duration := 1 } }
                  challenger := { available := true
                                  exec := fun _ => { success := true, output := "ok", duration := 1 } }
                  defender := { available := true
                                exec := fun _ => { success := true, output := "ok", duration := 1 } } }).1.rounds
            ++ [fv]) := by
  have h := claim_C6_debate_transcript
    { topic := "t", rounds := 2, moderatorType := .gemini
      challengerType := .claude, defenderType := .codex }
    { openingOf := fun _ => "", challengerOf := fun _ _ _ => ""
      defenderOf := fun _ _ _ => "", evaluationOf := fun _ _ _ => ""
      finalVerdictOf := fun _ _ => "" }
    { moderator := { available := true
                     exec := fun _ => { success := true, output := "ok", duration := 1 } }
      challenger := { available := true
                      exec := fun _ => { success := true, output := "ok", duration := 1 } }
      defender := { available := true
                    exec := fun _ => { success := true, output := "ok", duration := 1 } } }
    rfl rfl rfl (fun _ => rfl) (fun _ => rfl) (fun _ => rfl)
  obtain ⟨h1, h2, _, op, fv, h4, h5, _, _, h8⟩ := h
  exact ⟨h1, h2, op, fv, h4, h5, h8⟩

theorem mem_insertKey (ks : List CLIType) (k x : CLIType) :
    x ∈ insertKey ks k ↔ x ∈ ks ∨ x = k := by
  unfold insertKey
  by_cases h : k ∈ ks
  · simp only [h, if_true]
    constructor
    · exact Or.inl
    · rintro (hx | rfl)
      · exact hx
      · exact h
  · simp [h]

theorem insertKey_nodup (ks : List CLIType) (k : CLIType) (h : ks.Nodup) :
    (insertKey ks k).Nodup := by
  unfold insertKey
  by_cases hk : k ∈ ks
  · simpa [hk]
  · simp [hk, List.nodup_append, h]

theorem foldl_insertKey_nodup (f : CodeIssue → CLIType) (l : List CodeIssue) :
    ∀ ks : List CLIType, ks.Nodup → (l.foldl (fun ks i => insertKey ks (f i)) ks).Nodup := by
  induction l with
  | nil => intro ks h; exact h
  | cons i rest ih =>
    intro ks h
    exact ih (insertKey ks (f i)) (insertKey_nodup ks (f i) h)

theorem foldl_insertKey_mem (f : CodeIssue → CLIType) (l : List CodeIssue) :
    ∀ (ks : List CLIType) (x : CLIType),
      x ∈ l.foldl (fun ks i => insertKey ks (f i)) ks ↔ x ∈ ks ∨ ∃ i ∈ l, f i = x := by
  induction l with
  | nil => intro ks x; simp
  | cons i rest ih =>
    intro ks x
    rw [List.foldl_cons, ih, mem_insertKey]
    constructor
    · rintro ((hx | rfl) | ⟨j, hj, rfl⟩)
      · exact Or.inl hx
      · exact Or.inr ⟨i, List.mem_cons_self i rest, rfl⟩
      · exact Or.inr ⟨j, List.mem_cons_of_mem i hj, rfl⟩
    · rintro (hx | ⟨j, hj, rfl⟩)
      · exact Or.inl (Or.inl hx)
      · rcases List.mem_cons.mp hj with rfl | hj2
        · exact Or.inl (Or.inr rfl)
        · exact Or.inr ⟨j, hj2, rfl⟩

theorem filter_key_shift (issues : List CodeIssue) (k k' : CLIType) (hne : k' ≠ k) :
    issues.filter (fun i => issueCli i == k') =
      (issues.filter (fun i => !(issueCli i == k))).filter (fun i => issueCli i == k') := by
  rw [List.filter_filter]
  apply List.filter_congr
  intro i _
  by_cases h : issueCli i = k'
  · simp [h, hne]
  · simp [h]

theorem group_filter_perm (keys : List CLIType) :
    ∀ issues : List CodeIssue, keys.Nodup →
      (∀ i ∈ issues, issueCli i ∈ keys) →
      List.Perm (keys.flatMap (fun k => issues.filter (fun i => issueCli i == k))) issues := by
  induction keys with
  | nil =>
    intro issues _ hcov
    cases issues with
    | nil => simp
    | cons i rest => exact absurd (hcov i (List.mem_cons_self i rest)) (by simp)
  | cons k ks ih =>
    intro issues hnd hcov
    have hknotin : k ∉ ks := (List.nodup_cons.mp hnd).1
    have hndks : ks.Nodup := (List.nodup_cons.mp hnd).2
    have hshift : ks.flatMap (fun k' => issues.filter (fun i => issueCli i == k')) =
        ks.flatMap (fun k' =>
          (issues.filter (fun i => !(issueCli i == k))).filter (fun i => issueCli i == k')) := by
      apply List.flatMap_congr
      intro k' hk'
      exact filter_key_shift issues k k' (fun he => hknotin (he ▸ hk'))
    have hcov' : ∀ i ∈ issues.filter (fun i => !(issueCli i == k)), issueCli i ∈ ks := by
      intro i hi
      obtain ⟨hmem, hkeep⟩ := List.mem_filter.mp hi
      have := hcov i hmem
      rcases List.mem_cons.mp this with he | hks
      · simp [he] at hkeep
      · exact hks
    have hperm2 := ih (issues.filter (fun i => !(issueCli i == k))) hndks hcov'
    have hsplit : (k :: ks).flatMap (fun k' => issues.filter (fun i => issueCli i == k')) =
        issues.filter (fun i => issueCli i == k) ++
          ks.flatMap (fun k' => issues.filter (fun i => issueCli i == k')) := by
      simp [List.flatMap_cons]
    rw [hsplit, hshift]
    exact (List.Perm.append_left _ hperm2).trans (List.filter_append_perm _ issues)

/-- C5 counterexample: with auto-fix enabled, a non-empty confirmed issue
list and an explicit fixer configuration covering only the codex backend,
the single issue routed to the default claude backend produces NO FixTask
at all — the phase silently skips issues whose backend has no fixer — so
the claim that exactly one FixTask is created per confirmed Issue is false
on this input. -/
theorem claim_C5_counterexample :
    executeParallelFix
      { path := "p", autoFix := true, challengerType := .claude
        defenderType := .claude, moderatorType := .claude, fixers := some [.codex] }
      { challengerOf := fun _ _ => "", defenderOf := fun _ _ => ""
        verdictOf := fun _ _ _ => "", fixOf := fun _ _ => "" }
      { challenger := { available := true
                        exec := fun _ => { success := true, output := "", duration := 1 } }
        defender := { available := true
                      exec := fun _ => { success := true, output := "", duration := 1 } }
        moderator := { available := true
                       exec := fun _ => { success := true, output := "", duration := 1 } }
        fixerOf := fun _ => { available := true
                              exec := fun _ => { success := true, output := "", duration := 1 } } }
      [{ id := "issue-1", type := .bug, severity := .low, description := .null
         filePath := .null, lineNumber := .null, suggestedFix := .null }] = [] := rfl

/-- C5 amended: in the ParallelFix phase (auto-fix enabled, confirmed
issues non-empty), PROVIDED the routed backend of every issue has a fixer in the
fixer map, exactly one FixTask is created per confirmed Issue (the task issues are a permutation of the confirmed issues); every created task
reaches a terminal status decided solely by its own fixer's execution
result — one task's failure neither cancels nor blocks the others — with
its result text and duration always recorded.  Issues routed to a backend
absent from the fixer map are silently skipped. -/
theorem claim_C5_parallel_fix (cfg : CodeReviewConfigM) (P : ReviewPrompts)
    (ag : ReviewAgents) (issues : List CodeIssue)
    (hfix : cfg.autoFix = true)
    (hne : issues ≠ [])
    (hcov : ∀ i ∈ issues, issueCli i ∈ fixerKeys cfg) :
    List.Perm ((executeParallelFix cfg P ag issues).map (fun t => t.issue)) issues ∧
    (executeParallelFix cfg P ag issues).length = issues.length ∧
    ∀ t ∈ executeParallelFix cfg P ag issues,
      t.assignedCLI = issueCli t.issue ∧
      t.status = (if ((ag.fixerOf (issueCli t.issue)).exec (P.fixOf t.issue cfg.path)).success
                  then .completed else .failed) ∧
      (t.status = .completed ∨ t.status = .failed) ∧
      t.result = some ((ag.fixerOf (issueCli t.issue)).exec (P.fixOf t.issue cfg.path)).output ∧
      t.duration =
        some ((ag.fixerOf (issueCli t.issue)).exec (P.fixOf t.issue cfg.path)).duration := by
  have hisEmpty : issues.isEmpty = false := by
    cases issues with
    | nil => exact absurd rfl hne
    | cons a l => rfl
  have htasks : executeParallelFix cfg P ag issues =
      (parallelFixWork cfg issues).enum.map
        (fun wi => executeFixTask (ag.fixerOf wi.2.1) wi.2.1 wi.2.2 cfg.path P wi.1) := by
    unfold executeParallelFix
    simp [hfix, hisEmpty]
  have hkeys_nodup :
      (issues.foldl (fun ks i => insertKey ks (issueCli i)) []).Nodup :=
    foldl_insertKey_nodup issueCli issues [] List.nodup_nil
  have hkeys_mem : ∀ x, x ∈ issues.foldl (fun ks i => insertKey ks (issueCli i)) [] ↔
      ∃ i ∈ issues, issueCli i = x := by
    intro x
    simpa using foldl_insertKey_mem issueCli issues [] x
  have hkeys_cover : ∀ i ∈ issues,
      issueCli i ∈ issues.foldl (fun ks i => insertKey ks (issueCli i)) [] := by
    intro i hi
    exact (hkeys_mem (issueCli i)).mpr ⟨i, hi, rfl⟩
  have hfilter_keys :
      (issues.foldl (fun ks i => insertKey ks (issueCli i)) []).filter
          (fun k => decide (k ∈ fixerKeys cfg)) =
        issues.foldl (fun ks i => insertKey ks (issueCli i)) [] := by
    apply List.filter_eq_self.mpr
    intro k hk
    obtain ⟨i, hi, rfl⟩ := (hkeys_mem k).mp hk
    exact decide_eq_true (hcov i hi)
  have hwork : parallelFixWork cfg issues =
      (issues.foldl (fun ks i => insertKey ks (issueCli i)) []).flatMap
        (fun k => (issues.filter (fun i => issueCli i == k)).map (fun i => (k, i))) := by
    unfold parallelFixWork
    simp only [hfilter_keys]
  have hissue_proj : (executeParallelFix cfg P ag issues).map (fun t => t.issue) =
      (parallelFixWork cfg issues).map (fun p => p.2) := by
    rw [htasks, List.map_map]
    have : ((fun t : FixTask => t.issue) ∘
        fun wi : Nat × (CLIType × CodeIssue) =>
          executeFixTask (ag.fixerOf wi.2.1) wi.2.1 wi.2.2 cfg.path P wi.1) =
        (fun p : CLIType × CodeIssue => p.2) ∘ Prod.snd := rfl
    rw [this, ← List.map_map, List.enum_map_snd]
  have hproj_perm : List.Perm ((parallelFixWork cfg issues).map (fun p => p.2)) issues := by
    rw [hwork, List.map_flatMap]
    have : (fun k => ((issues.filter (fun i => issueCli i == k)).map
          (fun i => (k, i))).map (fun p : CLIType × CodeIssue => p.2)) =
        (fun k => issues.filter (fun i => issueCli i == k)) := by
      funext k
      rw [List.map_map]
      exact List.map_id _
    rw [this]
    exact group_filter_perm _ issues hkeys_nodup hkeys_cover
  have hperm : List.Perm ((executeParallelFix cfg P ag issues).map (fun t => t.issue)) issues :=
    hissue_proj ▸ hproj_perm
  refine ⟨hperm, ?_, ?_⟩
  · have := hperm.length_eq
    simpa using this
  · intro t ht
    rw [htasks] at ht
    obtain ⟨wi, hwi, rfl⟩ := List.mem_map.mp ht
    have hw2 : wi.2 ∈ parallelFixWork cfg issues := List.snd_mem_of_mem_enum hwi
    rw [hwork] at hw2
    obtain ⟨k, _, hmem⟩ := List.mem_flatMap.mp hw2
    obtain ⟨i, hi, heq⟩ := List.mem_map.mp hmem
    have hki : issueCli i = k := by
      have := (List.mem_filter.mp hi).2
      simpa using this
    have h21 : wi.2.1 = k := by rw [← heq]
    have h22 : wi.2.2 = i := by rw [← heq]
    rw [h21, h22]
    refine ⟨?_, ?_, ?_, ?_, ?_⟩
    · show k = issueCli i
      rw [hki]
    · show (if ((ag.fixerOf k).exec (P.fixOf i cfg.path)).success
            then FixStatus.completed else FixStatus.failed) =
          (if ((ag.fixerOf (issueCli i)).exec (P.fixOf i cfg.path)).success
            then FixStatus.completed else FixStatus.failed)
      rw [hki]
    · show (if ((ag.fixerOf k).exec (P.fixOf i cfg.path)).success
            then FixStatus.completed else FixStatus.failed) = .completed ∨
          (if ((ag.fixerOf k).exec (P.fixOf i cfg.path)).success
            then FixStatus.completed else FixStatus.failed) = .failed
      by_cases hs : ((ag.fixerOf k).exec (P.fixOf i cfg.path)).success
      · left; rw [if_pos hs]
      · right; rw [if_neg hs]
    · show some ((ag.fixerOf k).exec (P.fixOf i cfg.path)).output =
          some ((ag.fixerOf (issueCli i)).exec (P.fixOf i cfg.path)).output
      rw [hki]
    · show some ((ag.fixerOf k).exec (P.fixOf i cfg.path)).duration =
          some ((ag.fixerOf (issueCli i)).exec (P.fixOf i cfg.path)).duration
      rw [hki]

/-- C5 witness: the amended fan-out theorem at a concrete run of three
issues assigned to three different backends with the codex fixer always
failing: the two other tasks still complete and the failing one is failed
with a non-empty result and a duration. -/
theorem claim_C5_parallel_fix_witness :
    (executeParallelFix
        { path := "p", autoFix := true, challengerType := .claude
          defenderType := .claude, moderatorType := .claude }
        { challengerOf := fun _ _ => "", defenderOf := fun _ _ => ""
          verdictOf := fun _ _ _ => "", fixOf := fun _ _ => "" }
        { challenger := { available := true
                          exec := fun _ => { success := true, output := "", duration := 1 } }
          defender := { available := true
                        exec := fun _ => { success := true, output := "", duration := 1 } }
          moderator := { available := true
                         exec := fun _ => { success := true, output := "", duration := 1 } }
          fixerOf := fun c => match c with
            | .codex => { available := true
                          exec := fun _ => { success := false, output := "boom", duration := 7 } }
            | _ => { available := true
                     exec := fun _ => { success := true, output := "done", duration := 3 } } }
        [{ id := "issue-1", type := .bug, severity := .low, description := .null
           filePath := .null, lineNumber := .null, suggestedFix := .null
           assignedTo := some .claude },
         { id := "issue-2", type := .bug, severity := .low, description := .null
           filePath := .null, lineNumber := .null, suggestedFix := .null
           assignedTo := some .codex },
         { id := "issue-3", type := .bug, severity := .low, description := .null
           filePath := .null, lineNumber := .null, suggestedFix := .null
           assignedTo := some .gemini }]).map (fun t => t.status) =
      [.completed, .failed, .completed] ∧
    (executeParallelFix
        { path := "p", autoFix := true, challengerType := .claude
          defenderType := .claude, moderatorType := .claude }
        { challengerOf := fun _ _ => "", defenderOf := fun _ _ => ""
          verdictOf := fun _ _ _ => "", fixOf := fun _ _ => "" }
        { challenger := { available := true
                          exec := fun _ => { success := true, output := "", duration := 1 } }
          defender := { available := true
                        exec := fun _ => { success := true, output := "", duration := 1 } }
          moderator := { available := true
                         exec := fun _ => { success := true, output := "", duration := 1 } }
          fixerOf := fun c => match c with
            | .codex => { available := true
                          exec := fun _ => { success := false, output := "boom", duration := 7 } }
            | _ => { available := true
                     exec := fun _ => { success := true, output := "done", duration := 3 } } }
        [{ id := "issue-1", type := .bug, severity := .low, description := .null
           filePath := .null, lineNumber := .null, suggestedFix := .null
           assignedTo := some .claude },
         { id := "issue-2", type := .bug, severity := .low, description := .null
           filePath := .null, lineNumber := .null, suggestedFix := .null
           assignedTo := some .codex },
         { id := "issue-3", type := .bug, severity := .low, description := .null
           filePath := .null, lineNumber := .null, suggestedFix := .null
           assignedTo := some .gemini }]).map (fun t => t.result) =
      [some "done", some "boom", some "done"] ∧
    (executeParallelFix
        { path := "p", autoFix := true, challengerType := .claude
          defenderType := .claude, moderatorType := .claude }
        { challengerOf := fun _ _ => "", defenderOf := fun _ _ => ""
          verdictOf := fun _ _ _ => "", fixOf := fun _ _ => "" }
        { challenger := { available := true
                          exec := fun _ => { success := true, output := "", duration := 1 } }
          defender := { available := true
                        exec := fun _ => { success := true, output := "", duration := 1 } }
          moderator := { available := true
                         exec := fun _ => { success := true, output := "", duration := 1 } }
          fixerOf := fun c => match c with
            | .codex => { available := true
                          exec := fun _ => { success := false, output := "boom", duration := 7 } }
            | _ => { available := true
                     exec := fun _ => { success := true, output := "done", duration := 3 } } }
        [{ id := "issue-1", type := .bug, severity := .low, description := .null
           filePath := .null, lineNumber := .null, suggestedFix := .null
           assignedTo := some .claude },
         { id := "issue-2", type := .bug, severity := .low, description := .null
           filePath := .null, lineNumber := .null, suggestedFix := .null
           assignedTo := some .codex },
         { id := "issue-3", type := .bug, severity := .low, description := .null
           filePath := .null, lineNumber := .null, suggestedFix := .null
           assignedTo := some .gemini }]).map (fun t => t.duration) =
      [some 3, some 7, some 3] ∧
    (executeParallelFix
        { path := "p", autoFix := true, challengerType := .claude
          defenderType := .claude, moderatorType := .claude }
        { challengerOf := fun _ _ => "", defenderOf := fun _ _ => ""
          verdictOf := fun _ _ _ => "", fixOf := fun _ _ => "" }
        { challenger := { available := true
                          exec := fun _ => { success := true, output := "", duration := 1 } }
          defender := { available := true
                        exec := fun _ => { success := true, output := "", duration := 1 } }
          moderator := { available := true
                         exec := fun _ => { success := true, output := "", duration := 1 } }
          fixerOf := fun c => match c with
            | .codex => { available := true
                          exec := fun _ => { success := false, output := "boom", duration := 7 } }
            | _ => { available := true
                     exec := fun _ => { success := true, output := "done", duration := 3 } } }
        [{ id := "issue-1", type := .bug, severity := .low, description := .null
           filePath := .null, lineNumber := .null, suggestedFix := .null
           assignedTo := some .claude },
         { id := "issue-2", type := .bug, severity := .low, description := .null
           filePath := .null, lineNumber := .null, suggestedFix := .null
           assignedTo := some .codex },
         { id := "issue-3", type := .bug, severity := .low, description := .null
           filePath := .null, lineNumber := .null, suggestedFix := .null
           assignedTo := some .gemini }]).length = 3 := by
  have h := claim_C5_parallel_fix
    { path := "p", autoFix := true, challengerType := .claude
      defenderType := .claude, moderatorType := .claude }
    { challengerOf := fun _ _ => "", defenderOf := fun _ _ => ""
      verdictOf := fun _ _ _ => "", fixOf := fun _ _ => "" }
    { challenger := { available := true
                      exec := fun _ => { success := true, output := "", duration := 1 } }
      defender := { available := true
                    exec := fun _ => { success := true, output := "", duration := 1 } }
      moderator := { available := true
                     exec := fun _ => { success := true, output := "", duration := 1 } }
      fixerOf := fun c => match c with
        | .codex => { available := true
                      exec := fun _ => { success := false, output := "boom", duration := 7 } }
        | _ => { available := true
                 exec := fun _ => { success := true, output := "done", duration := 3 } } }
    [{ id := "issue-1", type := .bug, severity := .low, description := .null
       filePath := .null, lineNumber := .null, suggestedFix := .null
       assignedTo := some .claude },
     { id := "issue-2", type := .bug, severity := .low, description := .null
       filePath := .null, lineNumber := .null, suggestedFix := .null
       assignedTo := some .codex },
     { id := "issue-3", type := .bug, severity := .low, description := .null
       filePath := .null, lineNumber := .null, suggestedFix := .null
       assignedTo := some .gemini }]
    rfl (List.cons_ne_nil _ _)
    (by
      intro i hi
      rcases List.mem_cons.mp hi with rfl | hi2
      · decide
      · rcases List.mem_cons.mp hi2 with rfl | hi3
        · decide
        · rcases List.mem_cons.mp hi3 with rfl | hi4
          · decide
          · cases hi4)
  exact ⟨rfl, rfl, rfl, h.2.1⟩

theorem execStep_resolved (st : ExecutorState) (t : Nat) (e : ExecEvent)
    (h : st.resolved = true) :
    (execStep st t e).result = st.result ∧
    (execStep st t e).resolveCalls = st.resolveCalls ∧
    (execStep st t e).resolved = true := by
  cases e <;> simp [execStep, h]

theorem execRunFrom_resolved (es : List ExecEvent) :
    ∀ (st : ExecutorState) (t : Nat), st.resolved = true →
      (execRunFrom st t es).result = st.result ∧
      (execRunFrom st t es).resolveCalls = st.resolveCalls := by
  induction es with
  | nil => intro st t _; exact ⟨rfl, rfl⟩
  | cons e es ih =>
    intro st t h
    obtain ⟨h1, h2, h3⟩ := execStep_resolved st t e h
    obtain ⟨ih1, ih2⟩ := ih (execStep st t e) (t + 1) h3
    exact ⟨ih1.trans h1, ih2.trans h2⟩

theorem execRunFrom_unresolved (es : List ExecEvent) :
    ∀ (st : ExecutorState) (t : Nat),
      st.resolved = false → st.result = none → st.resolveCalls = 0 →
      st.timerCleared = false →
      (execRunFrom st t es).result = specOutcome es t st.output st.errorOutput ∧
      (execRunFrom st t es).resolveCalls = (if es.any isResolving then 1 else 0) := by
  induction es with
  | nil =>
    intro st t h1 h2 h3 _
    exact ⟨h2, by simpa using h3⟩
  | cons e es ih =>
    intro st t h1 h2 h3 h4
    cases e with
    | stdoutData c =>
      have hstep : execStep st t (.stdoutData c) = { st with output := st.output ++ c } := rfl
      have := ih { st with output := st.output ++ c } (t + 1) h1 h2 h3 h4
      unfold execRunFrom
      rw [hstep]
      simpa [specOutcome, isResolving] using this
    | stderrData c =>
      have hstep : execStep st t (.stderrData c) =
          { st with errorOutput := st.errorOutput ++ c } := rfl
      have := ih { st with errorOutput := st.errorOutput ++ c } (t + 1) h1 h2 h3 h4
      unfold execRunFrom
      rw [hstep]
      simpa [specOutcome, isResolving] using this
    | timerFired =>
      have hstep : execStep st t .timerFired =
          { st with resolved := true, killed := true, resolveCalls := st.resolveCalls + 1
                    result := some { success := false, output := st.output
                                     error := some "执行超时", duration := t } } := by
        unfold execStep
        simp [h1, h4]
      obtain ⟨hr, hc⟩ := execRunFrom_resolved es (execStep st t .timerFired) (t + 1)
        (by rw [hstep])
      unfold execRunFrom
      refine ⟨?_, ?_⟩
      · rw [hr, hstep]
        rfl
      · rw [hc, hstep]
        simp [isResolving, h3]
    | close code =>
      have hstep : execStep st t (.close code) =
          { st with resolved := true, timerCleared := true
                    resolveCalls := st.resolveCalls + 1
                    result := some { success := code == some 0, output := st.output.trim
                                     error := if code ≠ some 0
                                              then some (closeError st.errorOutput code)
                                              else none
                                     duration := t } } := by
        unfold execStep
        simp [h1]
      obtain ⟨hr, hc⟩ := execRunFrom_resolved es (execStep st t (.close code)) (t + 1)
        (by rw [hstep])
      unfold execRunFrom
      refine ⟨?_, ?_⟩
      · rw [hr, hstep]
        rfl
      · rw [hc, hstep]
        simp [isResolving, h3]
    | spawnError msg =>
      have hstep : execStep st t (.spawnError msg) =
          { st with resolved := true, timerCleared := true
                    resolveCalls := st.resolveCalls + 1
                    result := some { success := false, output := ""
                                     error := some msg, duration := t } } := by
        unfold execStep
        simp [h1]
      obtain ⟨hr, hc⟩ := execRunFrom_resolved es (execStep st t (.spawnError msg)) (t + 1)
        (by rw [hstep])
      unfold execRunFrom
      refine ⟨?_, ?_⟩
      · rw [hr, hstep]
        rfl
      · rw [hc, hstep]
        simp [isResolving, h3]

theorem specOutcome_isSome (es : List ExecEvent) :
    ∀ (t : Nat) (out err : String),
      (specOutcome es t out err).isSome = es.any isResolving := by
  induction es with
  | nil => intro t out err; rfl
  | cons e es ih =>
    intro t out err
    cases e <;> simp [specOutcome, isResolving, ih]

/-- C1: BaseCLIAgent.execute resolves at most once for every interleaving
of stdout/stderr/close/error/timeout events (the resolved flag admits no
double resolution), resolves exactly once as soon as any resolving event
occurs, and the resolved value is precisely the specified outcome of the
first resolving event — success with accumulated output on exit code zero,
non-zero-exit failure carrying stderr text or the exit code, timeout
failure with the sentinel error retaining the partial output, or launch
failure carrying the error message; the model returns a value and has no
rejection path. -/
theorem claim_C1_executor (events : List ExecEvent) :
    (execRun events).resolveCalls ≤ 1 ∧
    (execRun events).result = specOutcome events 0 "" "" ∧
    ((execRun events).resolveCalls = 1 ↔ events.any isResolving = true) ∧
    ((execRun events).result.isSome = true ↔ events.any isResolving = true) := by
  obtain ⟨h1, h2⟩ := execRunFrom_unresolved events {} 0 rfl rfl rfl rfl
  have hr : (execRun events).result = specOutcome events 0 "" "" := h1
  have hc : (execRun events).resolveCalls = (if events.any isResolving then 1 else 0) := h2
  have hsome : (execRun events).result.isSome = events.any isResolving := by
    rw [hr, specOutcome_isSome]
  refine ⟨?_, hr, ?_, ?_⟩
  · rw [hc]
    by_cases h : events.any isResolving <;> simp [h]
  · rw [hc]
    by_cases h : events.any isResolving <;> simp [h]
  · rw [hsome]

end NexusCLI
